import Mathlib

/-!
Shallow embedding of the Network Segment Resolution Engine
(`server/controller/trisolaris/metadata/segment.go`).

Go maps are modelled as association lists with a deterministic (insertion)
iteration order; `mapset.Set` values are modelled as duplicate-free lists;
Go `uint32(x)` conversions are modelled by `u32` (reduction mod 2^32).
Queries that mutate the engine's claimed-interface set
(`vtapUsedVInterfaceIDs`) are modelled as functions returning the result
together with the updated engine state.
-/

namespace DF

/-- Association-list lookup: first binding of the key, as in a Go map read. -/
def alLookup {α β : Type} [DecidableEq α] : List (α × β) → α → Option β
  | [], _ => none
  | p :: t, k => if p.1 = k then some p.2 else alLookup t k

/-- Association-list write: overwrite the existing binding or append a new one,
as in a Go map assignment. -/
def alSet {α β : Type} [DecidableEq α] : List (α × β) → α → β → List (α × β)
  | [], k, v => [(k, v)]
  | p :: t, k, v => if p.1 = k then (k, v) :: t else p :: alSet t k v

/-- `models.VInterface` restricted to the fields `segment.go` reads. -/
structure VInterface where
  id : Int
  mac : String
  networkID : Int
deriving DecidableEq, Repr

/-- Go: `type MacID struct { Mac string; ID int }`. -/
structure MacID where
  mac : String
  id : Int
deriving DecidableEq, Repr

/-- Go: `newMacID`. -/
def newMacID (vif : VInterface) : MacID :=
  { mac := vif.mac, id := vif.id }

/-- Go: `type NetworkMacs map[int][]*MacID`. -/
abbrev NetworkMacs := List (Int × List MacID)

/-- Go: `newNetworkMacs`. -/
def newNetworkMacs : NetworkMacs := []

/-- Go: `NetworkMacs.add` — skip an empty MAC, else append the
`(mac, id)` pair under the interface's network id. -/
def NetworkMacs.add (n : NetworkMacs) (vif : VInterface) : NetworkMacs :=
  if vif.mac = "" then n
  else
    match alLookup n vif.networkID with
    | some l => alSet n vif.networkID (l ++ [newMacID vif])
    | none => alSet n vif.networkID [newMacID vif]

/-- Iterated `NetworkMacs.add` over a list of interfaces (the repeated
`netWorkMacs.add(vif)` loops in `segment.go`). -/
def addAllVifs (n : NetworkMacs) (vifs : List VInterface) : NetworkMacs :=
  vifs.foldl NetworkMacs.add n

/-- Go: `type IDToNetworkMacs map[int]NetworkMacs`. -/
abbrev IDToNetworkMacs := List (Int × NetworkMacs)

/-- Go: `type ServerToNetworkMacs map[string]NetworkMacs`. -/
abbrev ServerToNetworkMacs := List (String × NetworkMacs)

def newIDToNetworkMacs : IDToNetworkMacs := []

def newServerToNetworkMacs : ServerToNetworkMacs := []

/-- A `mapset.Set` of interfaces: duplicate-free list. -/
abbrev VifSet := List VInterface

/-- `mapset.Set.Add` for interfaces: no-op on duplicates. -/
def vifSetAdd (s : VifSet) (v : VInterface) : VifSet :=
  if v ∈ s then s else s ++ [v]

/-- Union of two interface sets (`Clone` + repeated `Add`). -/
def vifSetUnion (s t : VifSet) : VifSet :=
  t.foldl vifSetAdd s

/-- Go: `type IDToVifs map[int]mapset.Set`. -/
abbrev IDToVifs := List (Int × VifSet)

def newIDToVifs : IDToVifs := []

/-- Go: `IDToVifs.add` — union into an existing entry, else clone. -/
def IDToVifs.add (m : IDToVifs) (id : Int) (vifs : VifSet) : IDToVifs :=
  match alLookup m id with
  | some cur => alSet m id (vifSetUnion cur vifs)
  | none => alSet m id vifs

/-- Go `uint32(x)` conversion of an `int`. -/
def u32 (i : Int) : Nat :=
  (i % 4294967296).toNat

/-- The wire message `trident.Segment` restricted to the fields set here. -/
structure TridentSegment where
  id : Nat
  mac : List String
  interfaceId : List Nat
deriving DecidableEq, Repr

/-- The claimed-interface set (`mapset.Set` of ints): duplicate-free list. -/
def intSetAdd (s : List Int) (x : Int) : List Int :=
  if x ∈ s then s else s ++ [x]

/-- Go: the `Segment` engine state. -/
structure Segment where
  launchServerToSegments : ServerToNetworkMacs
  hostIDToSegments : IDToNetworkMacs
  gatewayHostIDToSegments : IDToNetworkMacs
  allGatewayHostSegments : List TridentSegment
  vtapUsedVInterfaceIDs : List Int
  notVtapUsedSegments : List TridentSegment
  bmDedicatedRemoteSegments : List TridentSegment
  vmIDToSegments : IDToNetworkMacs
  podNodeIDToSegments : IDToNetworkMacs
  vmIDToPodNodeAllVifs : IDToVifs
  podNodeIDToAllVifs : IDToVifs
deriving DecidableEq, Repr

/-- Go: `newSegment`. -/
def newSegment : Segment where
  launchServerToSegments := newServerToNetworkMacs
  hostIDToSegments := newIDToNetworkMacs
  gatewayHostIDToSegments := newIDToNetworkMacs
  allGatewayHostSegments := []
  vtapUsedVInterfaceIDs := []
  notVtapUsedSegments := []
  bmDedicatedRemoteSegments := []
  vmIDToSegments := newIDToNetworkMacs
  podNodeIDToSegments := newIDToNetworkMacs
  vmIDToPodNodeAllVifs := newIDToVifs
  podNodeIDToAllVifs := newIDToVifs

/-- One `trident.Segment` built from one network entry, id = the network id. -/
def segOfNetwork (p : Int × List MacID) : TridentSegment where
  id := u32 p.1
  mac := p.2.map MacID.mac
  interfaceId := p.2.map (fun m => u32 m.id)

/-- Insert every interface id of a network entry into the claimed set
(the `s.vtapUsedVInterfaceIDs.Add(macID.ID)` line in the resolve loops). -/
def claimMacIDs (claimed : List Int) (macIDs : List MacID) : List Int :=
  macIDs.foldl (fun acc m => intSetAdd acc m.id) claimed

/-- Go: `IDToNetworkMacs.getSegmentsByID` — nil on an unknown key, else one
segment per network entry, claiming every visited interface id. -/
def getSegmentsByID (t : IDToNetworkMacs) (id : Int) (s : Segment) :
    List TridentSegment × Segment :=
  match alLookup t id with
  | none => ([], s)
  | some networkMacs =>
      let r := networkMacs.foldl
        (fun acc p => (acc.1 ++ [segOfNetwork p], claimMacIDs acc.2 p.2))
        (([] : List TridentSegment), s.vtapUsedVInterfaceIDs)
      (r.1, { s with vtapUsedVInterfaceIDs := r.2 })

/-- Go: `ServerToNetworkMacs.getSegmentsByServer` — same shape, string key. -/
def getSegmentsByServer (t : ServerToNetworkMacs) (server : String) (s : Segment) :
    List TridentSegment × Segment :=
  match alLookup t server with
  | none => ([], s)
  | some networkMacs =>
      let r := networkMacs.foldl
        (fun acc p => (acc.1 ++ [segOfNetwork p], claimMacIDs acc.2 p.2))
        (([] : List TridentSegment), s.vtapUsedVInterfaceIDs)
      (r.1, { s with vtapUsedVInterfaceIDs := r.2 })

/-- `PlatformRawData` restricted to the associations `segment.go` reads.
`idToPodNode` keeps only the pod-node ids (`podnode.ID` is all that is read). -/
structure PlatformRawData where
  podNodeIDtoPodIDs : List (Int × List Int)
  podIDToVifs : List (Int × VifSet)
  podNodeIDToVmID : List (Int × Int)
  podNodeIDToVifs : List (Int × VifSet)
  idToPodNode : List Int
  serverToVmIDs : List (String × List Int)
  vmIDToVifs : List (Int × VifSet)
  hostIDToVifs : List (Int × VifSet)
  gatewayHostIDToVifs : List (Int × VifSet)
  deviceVifs : List VInterface
deriving Repr

/-- `convertDBInfo` step 1: for every known pod-node, union its own
interfaces and the interfaces of every pod it hosts. -/
def buildPodNodeAllVifs (rd : PlatformRawData) : IDToVifs :=
  rd.idToPodNode.foldl
    (fun m podnodeID =>
      let m1 := match alLookup rd.podNodeIDToVifs podnodeID with
        | some vifs => IDToVifs.add m podnodeID vifs
        | none => m
      match alLookup rd.podNodeIDtoPodIDs podnodeID with
      | some podIDs =>
          podIDs.foldl
            (fun m2 podID =>
              match alLookup rd.podIDToVifs podID with
              | some vifs => IDToVifs.add m2 podnodeID vifs
              | none => m2)
            m1
      | none => m1)
    newIDToVifs

/-- `convertDBInfo` step 2: lift each pod-node closure to its owning VM. -/
def buildVmPodNodeAllVifs (rd : PlatformRawData) (podNodeIDToAllVifs : IDToVifs) :
    IDToVifs :=
  rd.podNodeIDToVmID.foldl
    (fun m p =>
      match alLookup podNodeIDToAllVifs p.1 with
      | some allVifs => IDToVifs.add m p.2 allVifs
      | none => m)
    newIDToVifs

/-- Go: `Segment.convertDBInfo` — builds the pod-node closure
(`podNodeIDToAllVifs`: own vifs unioned with every hosted pod's vifs) and
lifts it to the owning VM (`vmIDToPodNodeAllVifs`). -/
def convertDBInfo (s : Segment) (rd : PlatformRawData) : Segment :=
  let podNodeIDToAllVifs := buildPodNodeAllVifs rd
  let vmIDToPodNodeAllVifs := buildVmPodNodeAllVifs rd podNodeIDToAllVifs
  { s with
    podNodeIDToAllVifs := podNodeIDToAllVifs
    vmIDToPodNodeAllVifs := vmIDToPodNodeAllVifs }

/-- The launch-server index: per server, every hosted VM's direct interfaces
unioned with that VM's pod-node closure. -/
def buildLaunchServerToSegments (rd : PlatformRawData) (clo : IDToVifs) :
    ServerToNetworkMacs :=
  rd.serverToVmIDs.foldl
    (fun acc p =>
      let nm := p.2.foldl
        (fun nm vmid =>
          let nm1 := match alLookup rd.vmIDToVifs vmid with
            | some vifs => addAllVifs nm vifs
            | none => nm
          match alLookup clo vmid with
          | some vifs => addAllVifs nm1 vifs
          | none => nm1)
        newNetworkMacs
      alSet acc p.1 nm)
    newServerToNetworkMacs

/-- An id-keyed index whose entries are the grouped direct interfaces (the
host, gateway-host and pod-node loops of `generateBaseSegmentsFromDB`). -/
def buildVifsIndex (entries : List (Int × VifSet)) : IDToNetworkMacs :=
  entries.foldl
    (fun acc p => alSet acc p.1 (addAllVifs newNetworkMacs p.2))
    newIDToNetworkMacs

/-- The VM index: direct interfaces unioned with the VM's pod-node closure. -/
def buildVMIDToSegments (rd : PlatformRawData) (clo : IDToVifs) : IDToNetworkMacs :=
  rd.vmIDToVifs.foldl
    (fun acc p =>
      let nm := addAllVifs newNetworkMacs p.2
      let nm2 := match alLookup clo p.1 with
        | some podVifs => addAllVifs nm podVifs
        | none => nm
      alSet acc p.1 nm2)
    newIDToNetworkMacs

/-- Go: `Segment.generateBaseSegmentsFromDB` — rebuilds the five entity
indices from the snapshot and the closure maps. -/
def generateBaseSegmentsFromDB (s : Segment) (rd : PlatformRawData) : Segment :=
  let launchServerToSegments := buildLaunchServerToSegments rd s.vmIDToPodNodeAllVifs
  let hostIDToSegments := buildVifsIndex rd.hostIDToVifs
  let gatewayHostIDToSegments := buildVifsIndex rd.gatewayHostIDToVifs
  let vmIDToSegments := buildVMIDToSegments rd s.vmIDToPodNodeAllVifs
  let podNodeIDToSegments := buildVifsIndex s.podNodeIDToAllVifs
  { s with
    launchServerToSegments := launchServerToSegments
    hostIDToSegments := hostIDToSegments
    gatewayHostIDToSegments := gatewayHostIDToSegments
    vmIDToSegments := vmIDToSegments
    podNodeIDToSegments := podNodeIDToSegments }

/-- Go: `Segment.generateGatewayHostSegments` — flattens the gateway-host
index into cached segments, every one with fixed id 1; no claiming. -/
def generateGatewayHostSegments (s : Segment) : Segment :=
  let segments := s.gatewayHostIDToSegments.foldl
    (fun acc p =>
      p.2.foldl
        (fun acc2 q =>
          acc2 ++ [{ id := 1
                     mac := q.2.map MacID.mac
                     interfaceId := q.2.map (fun m => u32 m.id) : TridentSegment }])
        acc)
    ([] : List TridentSegment)
  { s with allGatewayHostSegments := segments }

/-- Go: `Segment.GenerateNoVTapUsedSegments` — collects every device
interface whose id is not claimed; one fixed-id-1 segment when non-empty. -/
def GenerateNoVTapUsedSegments (s : Segment) (rd : PlatformRawData) : Segment :=
  let mv := rd.deviceVifs.foldl
    (fun (acc : List String × List Nat) vif =>
      if vif.id ∈ s.vtapUsedVInterfaceIDs then acc
      else (acc.1 ++ [vif.mac], acc.2 ++ [u32 vif.id]))
    (([] : List String), ([] : List Nat))
  let segments : List TridentSegment :=
    if 0 < mv.1.length then
      [{ id := 1, mac := mv.1, interfaceId := mv.2 }]
    else []
  { s with notVtapUsedSegments := segments }

/-- Go: `Segment.GetAllGatewayHostSegments` — pure read of the cache. -/
def GetAllGatewayHostSegments (s : Segment) : List TridentSegment × Segment :=
  (s.allGatewayHostSegments, s)

/-- Go: `Segment.GetNotVtapUsedSegments` — pure read of the cache. -/
def GetNotVtapUsedSegments (s : Segment) : List TridentSegment × Segment :=
  (s.notVtapUsedSegments, s)

/-- Go: `Segment.ClearVTapUsedVInterfaceIDs` — reset the claimed set. -/
def ClearVTapUsedVInterfaceIDs (s : Segment) : Segment :=
  { s with vtapUsedVInterfaceIDs := [] }

/-- Go: `Segment.GetLaunchServerSegments`. -/
def GetLaunchServerSegments (s : Segment) (launchServer : String) :
    List TridentSegment × Segment :=
  getSegmentsByServer s.launchServerToSegments launchServer s

/-- Go: `Segment.GetVMIDSegments`. -/
def GetVMIDSegments (s : Segment) (vmID : Int) : List TridentSegment × Segment :=
  getSegmentsByID s.vmIDToSegments vmID s

/-- Go: `Segment.GetHostIDSegments`. -/
def GetHostIDSegments (s : Segment) (hostID : Int) : List TridentSegment × Segment :=
  getSegmentsByID s.hostIDToSegments hostID s

/-- Go: `Segment.GetPodNodeSegments`. -/
def GetPodNodeSegments (s : Segment) (podNodeID : Int) : List TridentSegment × Segment :=
  getSegmentsByID s.podNodeIDToSegments podNodeID s

/-- Go: `Segment.GetTypeVMSegments` — merges the launch-server entry and the
host entry into one fixed-id-1 segment, claiming every visited interface. -/
def GetTypeVMSegments (s : Segment) (launchServer : String) (hostID : Int) :
    List TridentSegment × Segment :=
  let acc0 : List String × List Nat × List Int :=
    ([], [], s.vtapUsedVInterfaceIDs)
  let acc1 := match alLookup s.launchServerToSegments launchServer with
    | some networkMacs =>
        networkMacs.foldl
          (fun acc (p : Int × List MacID) =>
            p.2.foldl
              (fun acc2 (m : MacID) =>
                (acc2.1 ++ [m.mac], acc2.2.1 ++ [u32 m.id], intSetAdd acc2.2.2 m.id))
              acc)
          acc0
    | none => acc0
  let acc2 := match alLookup s.hostIDToSegments hostID with
    | some networkMacs =>
        networkMacs.foldl
          (fun acc (p : Int × List MacID) =>
            p.2.foldl
              (fun acc2 (m : MacID) =>
                (acc2.1 ++ [m.mac], acc2.2.1 ++ [u32 m.id], intSetAdd acc2.2.2 m.id))
              acc)
          acc1
    | none => acc1
  ([{ id := 1, mac := acc2.1, interfaceId := acc2.2.1 }],
   { s with vtapUsedVInterfaceIDs := acc2.2.2 })

/-- Go: `Segment.generateBaseSegments` — the per-refresh build entry point. -/
def generateBaseSegments (s : Segment) (rd : PlatformRawData) : Segment :=
  generateGatewayHostSegments (generateBaseSegmentsFromDB (convertDBInfo s rd) rd)

/-- The claimed-id accumulation over a whole `NetworkMacs` value, as performed
by the resolve loops. -/
def claimNetworkMacs (c : List Int) (nm : NetworkMacs) : List Int :=
  nm.foldl (fun acc p => claimMacIDs acc p.2) c

def srvW : String := "w"

/-! ### The not-yet-claimed computation -/

/-- The device interfaces whose ids escape a claimed set. -/
def unclaimedVifs (c : List Int) (l : List VInterface) : List VInterface :=
  l.filter (fun v => !decide (v.id ∈ c))

/-! ### Concrete snapshot: host 7 claims interfaces {1,2} of universe {1,2,3} -/

def vifA : VInterface := { id := 1, mac := "a", networkID := 10 }

def vifB : VInterface := { id := 2, mac := "b", networkID := 10 }

def vifC : VInterface := { id := 3, mac := "c", networkID := 20 }

def rdABC : PlatformRawData where
  podNodeIDtoPodIDs := []
  podIDToVifs := []
  podNodeIDToVmID := []
  podNodeIDToVifs := []
  idToPodNode := []
  serverToVmIDs := []
  vmIDToVifs := []
  hostIDToVifs := [(7, [vifA, vifB])]
  gatewayHostIDToVifs := []
  deviceVifs := [vifA, vifB, vifC]

/-! ### Network-key characterization of the grouped indices -/

/-- First-occurrence deduplication step. -/
def dedupStep (acc : List Int) (x : Int) : List Int :=
  if x ∈ acc then acc else acc ++ [x]

/-- First-occurrence deduplication of a list. -/
def firstDedup (l : List Int) : List Int :=
  l.foldl dedupStep []

/-- The network ids present among the indexable (non-empty-MAC) interfaces. -/
def presentNets (vifs : List VInterface) : List Int :=
  (vifs.filter (fun v => !(v.mac == ""))).map VInterface.networkID

/-! ### Entity interface lists produced by the build -/

/-- The value stored under a key of an `IDToVifs` map (empty when absent). -/
def optVifs (m : IDToVifs) (k : Int) : VifSet :=
  match alLookup m k with
  | some v => v
  | none => []

/-- The interface list a launch-server entry is built from: per hosted VM,
its direct interfaces then its pod-node closure. -/
def serverEntityVifs (dir : List (Int × VifSet)) (clo : IDToVifs) :
    List Int → VifSet
  | [] => []
  | v :: t => optVifs dir v ++ optVifs clo v ++ serverEntityVifs dir clo t

/-! ### The spec §8 four-layer snapshot -/

def vifH : VInterface := { id := 1, mac := "a1", networkID := 10 }

def vifV : VInterface := { id := 2, mac := "a2", networkID := 10 }

def vifN : VInterface := { id := 3, mac := "a3", networkID := 20 }

def vifP : VInterface := { id := 4, mac := "a4", networkID := 20 }

def srvFull : String := "srv"

def rdFull : PlatformRawData where
  podNodeIDtoPodIDs := [(300, [400])]
  podIDToVifs := [(400, [vifP])]
  podNodeIDToVmID := [(300, 200)]
  podNodeIDToVifs := [(300, [vifN])]
  idToPodNode := [300]
  serverToVmIDs := [(srvFull, [200])]
  vmIDToVifs := [(200, [vifV])]
  hostIDToVifs := [(100, [vifH])]
  gatewayHostIDToVifs := []
  deviceVifs := [vifH, vifV, vifN, vifP]

/-! ### Empty-MAC interfaces: never indexed, hence never in entity outputs -/

def vifE : VInterface := { id := 5, mac := "", networkID := 10 }

def rdE : PlatformRawData where
  podNodeIDtoPodIDs := []
  podIDToVifs := []
  podNodeIDToVmID := []
  podNodeIDToVifs := []
  idToPodNode := []
  serverToVmIDs := []
  vmIDToVifs := []
  hostIDToVifs := [(7, [vifE])]
  gatewayHostIDToVifs := []
  deviceVifs := [vifE]

/-- The stored groups of a `NetworkMacs` value hold no empty MAC. -/
def nmMacsOK (nm : NetworkMacs) : Prop :=
  ∀ p ∈ nm, ∀ m ∈ p.2, ¬ m.mac = ""

/-- The pod-id list stored for a pod-node (empty when absent). -/
def optPods (m : List (Int × List Int)) (k : Int) : List Int :=
  match alLookup m k with
  | some v => v
  | none => []

/-! ### Interface membership in resolved segment outputs -/

/-- A segment list contains an interface: some segment carries both its MAC
and its (converted) interface id. -/
def segsHaveVif (segs : List TridentSegment) (v : VInterface) : Prop :=
  ∃ seg ∈ segs, v.mac ∈ seg.mac ∧ u32 v.id ∈ seg.interfaceId

def vifS : VInterface := { id := 6, mac := "s", networkID := 30 }

def vifO : VInterface := { id := 7, mac := "o", networkID := 40 }

def rdC4 : PlatformRawData where
  podNodeIDtoPodIDs := [(300, [400])]
  podIDToVifs := [(400, [vifP])]
  podNodeIDToVmID := [(300, 200)]
  podNodeIDToVifs := [(300, [vifN]), (301, [vifO])]
  idToPodNode := [300, 301]
  serverToVmIDs := [(srvFull, [200, 201])]
  vmIDToVifs := [(200, [vifV]), (201, [vifS])]
  hostIDToVifs := [(100, [vifH])]
  gatewayHostIDToVifs := []
  deviceVifs := [vifH, vifV, vifN, vifP, vifS, vifO]

/-! ### Generic helper lemmas -/

theorem foldl_invariant {α β : Type} (P : β → Prop) (f : β → α → β)
    (hf : ∀ b a, P b → P (f b a)) :
    ∀ (l : List α) (b : β), P b → P (l.foldl f b) := by
  intro l
  induction l with
  | nil => intro b hb; exact hb
  | cons x t ih => intro b hb; exact ih (f b x) (hf b x hb)

theorem mem_intSetAdd_of_mem {c : List Int} {x : Int} (y : Int) (h : x ∈ c) :
    x ∈ intSetAdd c y := by
  unfold intSetAdd
  split
  · exact h
  · exact List.mem_append_left _ h

theorem self_mem_intSetAdd (c : List Int) (y : Int) : y ∈ intSetAdd c y := by
  unfold intSetAdd
  split
  · assumption
  · exact List.mem_append_right _ (List.mem_singleton.mpr rfl)

theorem mem_intSetAdd_iff {c : List Int} {x y : Int} :
    x ∈ intSetAdd c y ↔ x ∈ c ∨ x = y := by
  unfold intSetAdd
  split
  · rename_i hy
    constructor
    · exact fun h => Or.inl h
    · rintro (h | h)
      · exact h
      · exact h ▸ hy
  · simp [List.mem_append]

theorem mem_claimMacIDs_of_mem {c : List Int} {x : Int} (l : List MacID)
    (h : x ∈ c) : x ∈ claimMacIDs c l :=
  foldl_invariant (fun b => x ∈ b) _ (fun _ a hb => mem_intSetAdd_of_mem a.id hb) l c h

theorem mem_claimNetworkMacs_of_mem {c : List Int} {x : Int} (nm : NetworkMacs)
    (h : x ∈ c) : x ∈ claimNetworkMacs c nm :=
  foldl_invariant (fun b => x ∈ b) _ (fun _ p hb => mem_claimMacIDs_of_mem p.2 hb) nm c h

theorem resolveFold_eq (nm : NetworkMacs) (acc : List TridentSegment) (c : List Int) :
    nm.foldl (fun acc p => (acc.1 ++ [segOfNetwork p], claimMacIDs acc.2 p.2)) (acc, c)
      = (acc ++ nm.map segOfNetwork, claimNetworkMacs c nm) := by
  induction nm generalizing acc c with
  | nil => simp [claimNetworkMacs]
  | cons p t ih => simp only [List.foldl_cons, ih, claimNetworkMacs, List.map_cons]; simp

/-- Resolve-by-id, rewritten: one segment per stored network entry, the
claimed set extended by every visited interface id. -/
theorem getSegmentsByID_eq (t : IDToNetworkMacs) (id : Int) (s : Segment) :
    getSegmentsByID t id s =
      match alLookup t id with
      | none => ([], s)
      | some nm =>
          (nm.map segOfNetwork,
           { s with vtapUsedVInterfaceIDs :=
               claimNetworkMacs s.vtapUsedVInterfaceIDs nm }) := by
  unfold getSegmentsByID
  cases alLookup t id with
  | none => rfl
  | some nm => simp [resolveFold_eq]

/-- Resolve-by-server, rewritten the same way. -/
theorem getSegmentsByServer_eq (t : ServerToNetworkMacs) (server : String) (s : Segment) :
    getSegmentsByServer t server s =
      match alLookup t server with
      | none => ([], s)
      | some nm =>
          (nm.map segOfNetwork,
           { s with vtapUsedVInterfaceIDs :=
               claimNetworkMacs s.vtapUsedVInterfaceIDs nm }) := by
  unfold getSegmentsByServer
  cases alLookup t server with
  | none => rfl
  | some nm => simp [resolveFold_eq]

/-! ### Gateway flattening: every emitted segment has fixed id 1 -/

theorem gatewayFold_id_one (l : IDToNetworkMacs) (acc : List TridentSegment)
    (hacc : ∀ g ∈ acc, g.id = 1) :
    ∀ g ∈ l.foldl
        (fun acc (p : Int × NetworkMacs) =>
          p.2.foldl
            (fun acc2 (q : Int × List MacID) =>
              acc2 ++ [{ id := 1
                         mac := q.2.map MacID.mac
                         interfaceId := q.2.map (fun m => u32 m.id) : TridentSegment }])
            acc)
        acc, g.id = 1 := by
  refine foldl_invariant (fun a => ∀ g ∈ a, g.id = 1) _ ?_ l acc hacc
  intro b p hb
  refine foldl_invariant (fun a => ∀ g ∈ a, g.id = 1) _ ?_ p.2 b hb
  intro b2 q hb2 g hg
  rcases List.mem_append.mp hg with hmem | hmem
  · exact hb2 g hmem
  · rw [List.mem_singleton.mp hmem]

/-- C3: every SegmentView produced by byVMTypeCombined
(`GetTypeVMSegments`), by the cached gateway flattening of a built engine
(`GetAllGatewayHostSegments` after `generateBaseSegments`), and by
`GenerateNoVTapUsedSegments`, carries the fixed id 1, however many distinct
networks were merged into it. -/
theorem fixed_id_one_for_merged_segments (s : Segment) (ls : String) (hID : Int)
    (rd : PlatformRawData) :
    ((GetTypeVMSegments s ls hID).1.all (fun g => g.id == 1)) = true ∧
    ((GetAllGatewayHostSegments (generateBaseSegments s rd)).1.all
      (fun g => g.id == 1)) = true ∧
    ((GenerateNoVTapUsedSegments s rd).notVtapUsedSegments.all
      (fun g => g.id == 1)) = true := by
  refine ⟨rfl, ?_, ?_⟩
  · rw [List.all_eq_true]
    intro g hg
    have h1 := gatewayFold_id_one
      ((generateBaseSegmentsFromDB (convertDBInfo s rd) rd).gatewayHostIDToSegments)
      [] (by intro g hg; cases hg) g hg
    simp [h1]
  · rw [List.all_eq_true]
    intro g hg
    unfold GenerateNoVTapUsedSegments at hg
    simp only at hg
    split at hg
    · rw [List.mem_singleton.mp hg]; rfl
    · cases hg

/-- C6: reading the cached gateway segments does not touch the engine state,
and the gateway flattening itself leaves the claimed-interface set unchanged,
so neither changes the outcome of a subsequent `GenerateNoVTapUsedSegments`. -/
theorem gateway_reads_leave_claims_unchanged (s : Segment) (rd : PlatformRawData) :
    (generateGatewayHostSegments s).vtapUsedVInterfaceIDs = s.vtapUsedVInterfaceIDs ∧
    (GetAllGatewayHostSegments s).2 = s ∧
    (GenerateNoVTapUsedSegments (GetAllGatewayHostSegments s).2 rd).notVtapUsedSegments =
      (GenerateNoVTapUsedSegments s rd).notVtapUsedSegments ∧
    (GenerateNoVTapUsedSegments (generateGatewayHostSegments s) rd).notVtapUsedSegments =
      (GenerateNoVTapUsedSegments s rd).notVtapUsedSegments :=
  ⟨rfl, rfl, rfl, rfl⟩

/-- C7: rebuilding twice from an identical snapshot is the same as rebuilding
once — with the claimed set cleared the two engines agree on every query, for
every entity key. -/
theorem rebuild_idempotent (s : Segment) (rd : PlatformRawData) (ls : String)
    (hID vmID pnID : Int) :
    generateBaseSegments (generateBaseSegments s rd) rd = generateBaseSegments s rd ∧
    ClearVTapUsedVInterfaceIDs (generateBaseSegments (generateBaseSegments s rd) rd) =
      ClearVTapUsedVInterfaceIDs (generateBaseSegments s rd) ∧
    GetLaunchServerSegments
        (ClearVTapUsedVInterfaceIDs (generateBaseSegments (generateBaseSegments s rd) rd)) ls =
      GetLaunchServerSegments (ClearVTapUsedVInterfaceIDs (generateBaseSegments s rd)) ls ∧
    GetHostIDSegments
        (ClearVTapUsedVInterfaceIDs (generateBaseSegments (generateBaseSegments s rd) rd)) hID =
      GetHostIDSegments (ClearVTapUsedVInterfaceIDs (generateBaseSegments s rd)) hID ∧
    GetVMIDSegments
        (ClearVTapUsedVInterfaceIDs (generateBaseSegments (generateBaseSegments s rd) rd)) vmID =
      GetVMIDSegments (ClearVTapUsedVInterfaceIDs (generateBaseSegments s rd)) vmID ∧
    GetPodNodeSegments
        (ClearVTapUsedVInterfaceIDs (generateBaseSegments (generateBaseSegments s rd) rd)) pnID =
      GetPodNodeSegments (ClearVTapUsedVInterfaceIDs (generateBaseSegments s rd)) pnID ∧
    GetTypeVMSegments
        (ClearVTapUsedVInterfaceIDs (generateBaseSegments (generateBaseSegments s rd) rd)) ls hID =
      GetTypeVMSegments (ClearVTapUsedVInterfaceIDs (generateBaseSegments s rd)) ls hID ∧
    GetAllGatewayHostSegments
        (ClearVTapUsedVInterfaceIDs (generateBaseSegments (generateBaseSegments s rd) rd)) =
      GetAllGatewayHostSegments (ClearVTapUsedVInterfaceIDs (generateBaseSegments s rd)) :=
  ⟨rfl, rfl, rfl, rfl, rfl, rfl, rfl, rfl⟩

/-! ### Unknown keys, monotone claiming, combined query shape -/

/-- C8: each per-entity query returns an empty result on an unknown key and
returns the engine unchanged (in particular the claimed-interface set). -/
theorem unknown_key_yields_empty (s : Segment) (k : Int) (srv : String) :
    (alLookup s.hostIDToSegments k = none → GetHostIDSegments s k = ([], s)) ∧
    (alLookup s.vmIDToSegments k = none → GetVMIDSegments s k = ([], s)) ∧
    (alLookup s.podNodeIDToSegments k = none → GetPodNodeSegments s k = ([], s)) ∧
    (alLookup s.launchServerToSegments srv = none →
      GetLaunchServerSegments s srv = ([], s)) := by
  refine ⟨?_, ?_, ?_, ?_⟩
  · intro h; unfold GetHostIDSegments getSegmentsByID; rw [h]
  · intro h; unfold GetVMIDSegments getSegmentsByID; rw [h]
  · intro h; unfold GetPodNodeSegments getSegmentsByID; rw [h]
  · intro h; unfold GetLaunchServerSegments getSegmentsByServer; rw [h]

theorem unknown_key_yields_empty_witness :
    GetHostIDSegments newSegment 0 = ([], newSegment) ∧
    GetVMIDSegments newSegment 0 = ([], newSegment) ∧
    GetPodNodeSegments newSegment 0 = ([], newSegment) ∧
    GetLaunchServerSegments newSegment srvW = ([], newSegment) :=
  ⟨(unknown_key_yields_empty newSegment 0 srvW).1 rfl,
   (unknown_key_yields_empty newSegment 0 srvW).2.1 rfl,
   (unknown_key_yields_empty newSegment 0 srvW).2.2.1 rfl,
   (unknown_key_yields_empty newSegment 0 srvW).2.2.2 rfl⟩

theorem typeVMFold_mono (nm : NetworkMacs) (a : List String × List Nat × List Int)
    {x : Int} (hx : x ∈ a.2.2) :
    x ∈ (nm.foldl
      (fun acc (p : Int × List MacID) =>
        p.2.foldl
          (fun acc2 (m : MacID) =>
            (acc2.1 ++ [m.mac], acc2.2.1 ++ [u32 m.id], intSetAdd acc2.2.2 m.id))
          acc)
      a).2.2 := by
  refine foldl_invariant (fun a => x ∈ a.2.2) _ ?_ nm a hx
  intro b p hb
  refine foldl_invariant (fun a => x ∈ a.2.2) _ ?_ p.2 b hb
  intro b2 m hb2
  exact mem_intSetAdd_of_mem m.id hb2

/-- C9: every query operation only grows the claimed-interface set, and only
`ClearVTapUsedVInterfaceIDs` empties it. -/
theorem claimed_set_monotone (s : Segment) (ls : String) (hID vmID pnID : Int) :
    (s.vtapUsedVInterfaceIDs.all
      (fun x => decide (x ∈ (GetLaunchServerSegments s ls).2.vtapUsedVInterfaceIDs))) = true ∧
    (s.vtapUsedVInterfaceIDs.all
      (fun x => decide (x ∈ (GetHostIDSegments s hID).2.vtapUsedVInterfaceIDs))) = true ∧
    (s.vtapUsedVInterfaceIDs.all
      (fun x => decide (x ∈ (GetVMIDSegments s vmID).2.vtapUsedVInterfaceIDs))) = true ∧
    (s.vtapUsedVInterfaceIDs.all
      (fun x => decide (x ∈ (GetPodNodeSegments s pnID).2.vtapUsedVInterfaceIDs))) = true ∧
    (s.vtapUsedVInterfaceIDs.all
      (fun x => decide (x ∈ (GetTypeVMSegments s ls hID).2.vtapUsedVInterfaceIDs))) = true ∧
    (ClearVTapUsedVInterfaceIDs s).vtapUsedVInterfaceIDs = [] := by
  refine ⟨?_, ?_, ?_, ?_, ?_, rfl⟩
  · rw [List.all_eq_true]
    intro x hx
    rw [decide_eq_true_eq]
    unfold GetLaunchServerSegments
    rw [getSegmentsByServer_eq]
    cases hl : alLookup s.launchServerToSegments ls with
    | none => simp only [hl]; exact hx
    | some nm => simp only [hl]; exact mem_claimNetworkMacs_of_mem nm hx
  · rw [List.all_eq_true]
    intro x hx
    rw [decide_eq_true_eq]
    unfold GetHostIDSegments
    rw [getSegmentsByID_eq]
    cases hl : alLookup s.hostIDToSegments hID with
    | none => simp only [hl]; exact hx
    | some nm => simp only [hl]; exact mem_claimNetworkMacs_of_mem nm hx
  · rw [List.all_eq_true]
    intro x hx
    rw [decide_eq_true_eq]
    unfold GetVMIDSegments
    rw [getSegmentsByID_eq]
    cases hl : alLookup s.vmIDToSegments vmID with
    | none => simp only [hl]; exact hx
    | some nm => simp only [hl]; exact mem_claimNetworkMacs_of_mem nm hx
  · rw [List.all_eq_true]
    intro x hx
    rw [decide_eq_true_eq]
    unfold GetPodNodeSegments
    rw [getSegmentsByID_eq]
    cases hl : alLookup s.podNodeIDToSegments pnID with
    | none => simp only [hl]; exact hx
    | some nm => simp only [hl]; exact mem_claimNetworkMacs_of_mem nm hx
  · rw [List.all_eq_true]
    intro x hx
    rw [decide_eq_true_eq]
    unfold GetTypeVMSegments
    simp only
    cases h1 : alLookup s.launchServerToSegments ls with
    | none =>
        cases h2 : alLookup s.hostIDToSegments hID with
        | none => simp only [h1, h2]; exact hx
        | some nm2 => simp only [h1, h2]; exact typeVMFold_mono nm2 _ hx
    | some nm1 =>
        cases h2 : alLookup s.hostIDToSegments hID with
        | none => simp only [h1, h2]; exact typeVMFold_mono nm1 _ hx
        | some nm2 =>
            simp only [h1, h2]
            exact typeVMFold_mono nm2 _ (typeVMFold_mono nm1 _ hx)

theorem noVTapFold (c : List Int) (l : List VInterface) (am : List String)
    (ai : List Nat) :
    l.foldl
      (fun (acc : List String × List Nat) vif =>
        if vif.id ∈ c then acc else (acc.1 ++ [vif.mac], acc.2 ++ [u32 vif.id]))
      (am, ai)
    = (am ++ (unclaimedVifs c l).map VInterface.mac,
       ai ++ (unclaimedVifs c l).map (fun v => u32 v.id)) := by
  induction l generalizing am ai with
  | nil => simp [unclaimedVifs]
  | cons v t ih =>
      by_cases hv : v.id ∈ c
      · simp [unclaimedVifs, hv, ih, List.filter_cons]
      · simp [unclaimedVifs, hv, ih, List.filter_cons]

/-- C1: `GenerateNoVTapUsedSegments` returns exactly the device interfaces
whose ids were not claimed — one single fixed-id-1 SegmentView when that
collection is non-empty, an empty list otherwise; and on a freshly built,
cleared engine, after `byHostID(7)` claims the host interfaces {1,2} of the
universe {1,2,3}, it yields exactly one SegmentView containing only
interface 3. -/
theorem notYetClaimed_exact (s : Segment) (rd : PlatformRawData) :
    ((GenerateNoVTapUsedSegments s rd).notVtapUsedSegments =
      if unclaimedVifs s.vtapUsedVInterfaceIDs rd.deviceVifs = [] then []
      else
        [{ id := 1
           mac := (unclaimedVifs s.vtapUsedVInterfaceIDs rd.deviceVifs).map
             VInterface.mac
           interfaceId := (unclaimedVifs s.vtapUsedVInterfaceIDs rd.deviceVifs).map
             (fun v => u32 v.id) }]) ∧
    (GenerateNoVTapUsedSegments
        (GetHostIDSegments
          (ClearVTapUsedVInterfaceIDs (generateBaseSegments newSegment rdABC)) 7).2
        rdABC).notVtapUsedSegments =
      [{ id := 1, mac := ["c"], interfaceId := [3] }] := by
  constructor
  · unfold GenerateNoVTapUsedSegments
    simp only [noVTapFold, List.nil_append]
    by_cases h : unclaimedVifs s.vtapUsedVInterfaceIDs rd.deviceVifs = []
    · simp [h]
    · simp only [h, if_false, List.length_map]
      rw [if_pos]
      exact List.length_pos.mpr h
  · decide

/-- C10: `GetTypeVMSegments` always returns exactly one SegmentView — with
empty macs and interfaceIDs when neither key is known — whereas
`GenerateNoVTapUsedSegments` yields an empty list once every device
interface is claimed. -/
theorem typeVM_always_single_segment (s : Segment) (ls : String) (hID : Int)
    (rd : PlatformRawData) :
    (GetTypeVMSegments s ls hID).1.length = 1 ∧
    (alLookup s.launchServerToSegments ls = none →
      alLookup s.hostIDToSegments hID = none →
      (GetTypeVMSegments s ls hID).1 = [{ id := 1, mac := [], interfaceId := [] }]) ∧
    ((∀ v ∈ rd.deviceVifs, v.id ∈ s.vtapUsedVInterfaceIDs) →
      (GenerateNoVTapUsedSegments s rd).notVtapUsedSegments = []) := by
  refine ⟨rfl, ?_, ?_⟩
  · intro h1 h2
    unfold GetTypeVMSegments
    simp [h1, h2]
  · intro hall
    unfold GenerateNoVTapUsedSegments
    simp only [noVTapFold, List.nil_append]
    have hnil : unclaimedVifs s.vtapUsedVInterfaceIDs rd.deviceVifs = [] := by
      unfold unclaimedVifs
      rw [List.filter_eq_nil_iff]
      intro v hv
      simp [hall v hv]
    simp [hnil]

theorem typeVM_always_single_segment_witness :
    (GetTypeVMSegments newSegment srvW 0).1.length = 1 ∧
    (GetTypeVMSegments newSegment srvW 0).1 = [{ id := 1, mac := [], interfaceId := [] }] ∧
    (GenerateNoVTapUsedSegments
        { newSegment with vtapUsedVInterfaceIDs := [1, 2, 3] } rdABC).notVtapUsedSegments = [] :=
  ⟨(typeVM_always_single_segment newSegment srvW 0 rdABC).1,
   (typeVM_always_single_segment newSegment srvW 0 rdABC).2.1 rfl rfl,
   (typeVM_always_single_segment { newSegment with vtapUsedVInterfaceIDs := [1, 2, 3] }
       srvW 0 rdABC).2.2 (by decide)⟩

/-! ### Association-list lemmas -/

theorem alLookup_alSet_self {α β : Type} [DecidableEq α] (l : List (α × β))
    (k : α) (v : β) : alLookup (alSet l k v) k = some v := by
  induction l with
  | nil => simp [alSet, alLookup]
  | cons p t ih =>
      unfold alSet
      by_cases h : p.1 = k
      · simp [h, alLookup]
      · simp [h, alLookup, ih]

theorem alLookup_alSet_ne {α β : Type} [DecidableEq α] (l : List (α × β))
    {k k2 : α} (v : β) (h : k ≠ k2) : alLookup (alSet l k v) k2 = alLookup l k2 := by
  induction l with
  | nil => simp [alSet, alLookup, h]
  | cons p t ih =>
      unfold alSet
      by_cases hp : p.1 = k
      · simp [hp, alLookup, h]
      · simp [hp, alLookup, ih]

theorem alLookup_eq_none_iff {α β : Type} [DecidableEq α] (l : List (α × β))
    (k : α) : alLookup l k = none ↔ k ∉ l.map Prod.fst := by
  induction l with
  | nil => simp [alLookup]
  | cons p t ih =>
      unfold alLookup
      by_cases hp : p.1 = k
      · simp [hp]
      · simp [hp, ih, Ne.symm hp]

theorem mem_of_alLookup_eq_some {α β : Type} [DecidableEq α] {l : List (α × β)}
    {k : α} {v : β} (h : alLookup l k = some v) : (k, v) ∈ l := by
  induction l with
  | nil => simp [alLookup] at h
  | cons p t ih =>
      obtain ⟨a, b⟩ := p
      by_cases hp : a = k
      · subst hp
        simp [alLookup] at h
        subst h
        exact List.mem_cons_self _ _
      · simp [alLookup, hp] at h
        exact List.mem_cons_of_mem _ (ih h)

theorem keys_alSet_of_mem {α β : Type} [DecidableEq α] (l : List (α × β))
    (k : α) (v : β) (h : k ∈ l.map Prod.fst) :
    (alSet l k v).map Prod.fst = l.map Prod.fst := by
  induction l with
  | nil => simp at h
  | cons p t ih =>
      obtain ⟨a, b⟩ := p
      by_cases hp : a = k
      · simp [alSet, hp]
      · simp only [List.map_cons, List.mem_cons] at h
        rcases h with h | h
        · exact absurd h.symm hp
        · simp [alSet, hp, ih h]

theorem alSet_of_not_mem {α β : Type} [DecidableEq α] (l : List (α × β))
    (k : α) (v : β) (h : k ∉ l.map Prod.fst) :
    alSet l k v = l ++ [(k, v)] := by
  induction l with
  | nil => simp [alSet]
  | cons p t ih =>
      obtain ⟨a, b⟩ := p
      simp only [List.map_cons, List.mem_cons] at h
      push_neg at h
      have ha : ¬a = k := fun hp => h.1 hp.symm
      simp [alSet, ha, ih h.2]

theorem mem_of_mem_alSet {α β : Type} [DecidableEq α] {l : List (α × β)}
    {k : α} {v : β} {q : α × β} (h : q ∈ alSet l k v) :
    q = (k, v) ∨ q ∈ l := by
  induction l with
  | nil => simp [alSet] at h; exact Or.inl h
  | cons p t ih =>
      obtain ⟨a, b⟩ := p
      by_cases hp : a = k
      · rw [alSet, if_pos hp] at h
        rcases List.mem_cons.mp h with h | h
        · exact Or.inl h
        · exact Or.inr (List.mem_cons_of_mem _ h)
      · rw [alSet, if_neg hp] at h
        rcases List.mem_cons.mp h with h | h
        · exact Or.inr (h ▸ List.mem_cons_self _ _)
        · rcases ih h with h | h
          · exact Or.inl h
          · exact Or.inr (List.mem_cons_of_mem _ h)

/-- Looking a key up in a map built by folding `alSet` over entries with
pairwise-distinct keys recovers the entry value, transformed. -/
theorem alLookup_setFold {α β γ : Type} [DecidableEq α] (f : α × β → γ) :
    ∀ (entries : List (α × β)) (acc : List (α × γ)) (k : α),
      (entries.map Prod.fst).Nodup →
      alLookup (entries.foldl (fun a p => alSet a p.1 (f p)) acc) k =
        (match alLookup entries k with
         | some v => some (f (k, v))
         | none => alLookup acc k) := by
  intro entries
  induction entries with
  | nil => intro acc k _; rfl
  | cons p t ih =>
      intro acc k hnd
      simp only [List.map_cons, List.nodup_cons] at hnd
      rw [List.foldl_cons, ih (alSet acc p.1 (f p)) k hnd.2]
      obtain ⟨a, b⟩ := p
      by_cases hk : a = k
      · subst hk
        have hnone : alLookup t a = none :=
          (alLookup_eq_none_iff t a).mpr hnd.1
        simp [alLookup, hnone, alLookup_alSet_self]
      · cases ht : alLookup t k with
        | none =>
            simp [alLookup, hk, ht, alLookup_alSet_ne acc (f (a, b)) hk]
        | some v => simp [alLookup, hk, ht]

theorem keys_NetworkMacsAdd (nm : NetworkMacs) (vif : VInterface) :
    (NetworkMacs.add nm vif).map Prod.fst =
      if vif.mac = "" then nm.map Prod.fst
      else dedupStep (nm.map Prod.fst) vif.networkID := by
  unfold NetworkMacs.add dedupStep
  by_cases hm : vif.mac = ""
  · simp [hm]
  · rw [if_neg hm, if_neg hm]
    cases hl : alLookup nm vif.networkID with
    | some l =>
        have hmem : vif.networkID ∈ nm.map Prod.fst :=
          List.mem_map.mpr ⟨_, mem_of_alLookup_eq_some hl, rfl⟩
        rw [if_pos hmem, keys_alSet_of_mem _ _ _ hmem]
    | none =>
        have hnm : vif.networkID ∉ nm.map Prod.fst := (alLookup_eq_none_iff _ _).mp hl
        rw [if_neg hnm, alSet_of_not_mem _ _ _ hnm]
        simp

theorem keys_addAllVifs :
    ∀ (vifs : List VInterface) (nm : NetworkMacs),
      (addAllVifs nm vifs).map Prod.fst =
        (presentNets vifs).foldl dedupStep (nm.map Prod.fst) := by
  intro vifs
  induction vifs with
  | nil => intro nm; simp [addAllVifs, presentNets]
  | cons v t ih =>
      intro nm
      have h1 : addAllVifs nm (v :: t) = addAllVifs (NetworkMacs.add nm v) t := rfl
      by_cases hm : v.mac = ""
      · have h2 : presentNets (v :: t) = presentNets t := by
          simp [presentNets, List.filter_cons, hm]
        rw [h1, h2, ih, keys_NetworkMacsAdd, if_pos hm]
      · have h2 : presentNets (v :: t) = v.networkID :: presentNets t := by
          simp [presentNets, List.filter_cons, hm]
        rw [h1, h2, List.foldl_cons, ih, keys_NetworkMacsAdd, if_neg hm]

theorem keys_addAllVifs_nil (vifs : List VInterface) :
    (addAllVifs newNetworkMacs vifs).map Prod.fst = firstDedup (presentNets vifs) := by
  rw [keys_addAllVifs]
  rfl

theorem dedupStep_nodup {acc : List Int} (x : Int) (h : acc.Nodup) :
    (dedupStep acc x).Nodup := by
  unfold dedupStep
  split
  · exact h
  · rename_i hx
    simp [List.nodup_append, h, hx]

theorem foldl_dedupStep_nodup (l : List Int) {acc : List Int} (h : acc.Nodup) :
    (l.foldl dedupStep acc).Nodup :=
  foldl_invariant (fun a => a.Nodup) _ (fun _ x hb => dedupStep_nodup x hb) l acc h

theorem firstDedup_nodup (l : List Int) : (firstDedup l).Nodup :=
  foldl_dedupStep_nodup l List.nodup_nil

theorem mem_of_mem_foldl_dedupStep :
    ∀ (l acc : List Int) (x : Int), x ∈ l.foldl dedupStep acc → x ∈ acc ∨ x ∈ l := by
  intro l
  induction l with
  | nil => intro acc x h; exact Or.inl h
  | cons y t ih =>
      intro acc x h
      rw [List.foldl_cons] at h
      rcases ih _ x h with h2 | h2
      · unfold dedupStep at h2
        split at h2
        · exact Or.inl h2
        · rcases List.mem_append.mp h2 with h3 | h3
          · exact Or.inl h3
          · rw [List.mem_singleton.mp h3]
            exact Or.inr (List.mem_cons_self _ _)
      · exact Or.inr (List.mem_cons_of_mem _ h2)

theorem mem_firstDedup {l : List Int} {x : Int} (h : x ∈ firstDedup l) : x ∈ l := by
  rcases mem_of_mem_foldl_dedupStep l [] x h with h2 | h2
  · cases h2
  · exact h2

theorem u32_coe_eq {n : Int} (h1 : 0 ≤ n) (h2 : n < 4294967296) : (u32 n : Int) = n := by
  unfold u32
  omega

theorem addAllVifs_matchOpt (nm : NetworkMacs) (m : IDToVifs) (k : Int) :
    (match alLookup m k with
     | some v => addAllVifs nm v
     | none => nm) = addAllVifs nm (optVifs m k) := by
  cases h : alLookup m k <;> simp [optVifs, h, addAllVifs]

theorem addAllVifs_append (nm : NetworkMacs) (a b : List VInterface) :
    addAllVifs nm (a ++ b) = addAllVifs (addAllVifs nm a) b := by
  simp [addAllVifs, List.foldl_append]

theorem serverFold_eq (dir : List (Int × VifSet)) (clo : IDToVifs) :
    ∀ (vmids : List Int) (nm : NetworkMacs),
      vmids.foldl
        (fun nm vmid =>
          let nm1 := match alLookup dir vmid with
            | some vifs => addAllVifs nm vifs
            | none => nm
          match alLookup clo vmid with
          | some vifs => addAllVifs nm1 vifs
          | none => nm1)
        nm
      = addAllVifs nm (serverEntityVifs dir clo vmids) := by
  intro vmids
  induction vmids with
  | nil => intro nm; simp [serverEntityVifs, addAllVifs]
  | cons v t ih =>
      intro nm
      rw [List.foldl_cons, ih]
      simp only [serverEntityVifs]
      rw [addAllVifs_append]
      congr 1
      rw [addAllVifs_append]
      cases h1 : alLookup dir v <;> cases h2 : alLookup clo v <;>
        simp [h1, h2, optVifs, addAllVifs]

/-! ### Lookups into the built indices -/

theorem buildVifsIndex_lookup (entries : List (Int × VifSet)) (k : Int)
    (vifs : VifSet) (hnd : (entries.map Prod.fst).Nodup)
    (hv : alLookup entries k = some vifs) :
    alLookup (buildVifsIndex entries) k = some (addAllVifs newNetworkMacs vifs) := by
  have h := alLookup_setFold (fun p : Int × VifSet => addAllVifs newNetworkMacs p.2)
    entries newIDToNetworkMacs k hnd
  rw [hv] at h
  exact h

theorem buildVMIDToSegments_lookup (rd : PlatformRawData) (clo : IDToVifs)
    (k : Int) (vifs : VifSet) (hnd : (rd.vmIDToVifs.map Prod.fst).Nodup)
    (hv : alLookup rd.vmIDToVifs k = some vifs) :
    alLookup (buildVMIDToSegments rd clo) k
      = some (addAllVifs newNetworkMacs (vifs ++ optVifs clo k)) := by
  have h := alLookup_setFold
    (fun p : Int × VifSet =>
      match alLookup clo p.1 with
      | some podVifs => addAllVifs (addAllVifs newNetworkMacs p.2) podVifs
      | none => addAllVifs newNetworkMacs p.2)
    rd.vmIDToVifs newIDToNetworkMacs k hnd
  rw [hv] at h
  have h2 : alLookup (buildVMIDToSegments rd clo) k
      = some (match alLookup clo k with
              | some podVifs => addAllVifs (addAllVifs newNetworkMacs vifs) podVifs
              | none => addAllVifs newNetworkMacs vifs) := h
  rw [h2, addAllVifs_append]
  cases hc : alLookup clo k <;> simp [hc, optVifs, addAllVifs]

theorem buildLaunchServerToSegments_lookup (rd : PlatformRawData) (clo : IDToVifs)
    (srv : String) (vmids : List Int) (hnd : (rd.serverToVmIDs.map Prod.fst).Nodup)
    (hv : alLookup rd.serverToVmIDs srv = some vmids) :
    alLookup (buildLaunchServerToSegments rd clo) srv
      = some (addAllVifs newNetworkMacs (serverEntityVifs rd.vmIDToVifs clo vmids)) := by
  have h := alLookup_setFold
    (fun p : String × List Int =>
      p.2.foldl
        (fun nm vmid =>
          let nm1 := match alLookup rd.vmIDToVifs vmid with
            | some vifs => addAllVifs nm vifs
            | none => nm
          match alLookup clo vmid with
          | some vifs => addAllVifs nm1 vifs
          | none => nm1)
        newNetworkMacs)
    rd.serverToVmIDs newServerToNetworkMacs srv hnd
  rw [hv] at h
  have h2 : alLookup (buildLaunchServerToSegments rd clo) srv
      = some (vmids.foldl
          (fun nm vmid =>
            let nm1 := match alLookup rd.vmIDToVifs vmid with
              | some vifs => addAllVifs nm vifs
              | none => nm
            match alLookup clo vmid with
            | some vifs => addAllVifs nm1 vifs
            | none => nm1)
          newNetworkMacs) := h
  rw [h2, serverFold_eq]

theorem keys_nodup_IDToVifsAdd (m : IDToVifs) (k : Int) (vifs : VifSet)
    (h : (m.map Prod.fst).Nodup) : ((IDToVifs.add m k vifs).map Prod.fst).Nodup := by
  unfold IDToVifs.add
  cases hl : alLookup m k with
  | some cur =>
      have hmem : k ∈ m.map Prod.fst :=
        List.mem_map.mpr ⟨_, mem_of_alLookup_eq_some hl, rfl⟩
      rw [keys_alSet_of_mem _ _ _ hmem]
      exact h
  | none =>
      have hnm : k ∉ m.map Prod.fst := (alLookup_eq_none_iff _ _).mp hl
      rw [alSet_of_not_mem _ _ _ hnm]
      simp [List.nodup_append, h, hnm]

theorem keys_nodup_buildPodNodeAllVifs (rd : PlatformRawData) :
    ((buildPodNodeAllVifs rd).map Prod.fst).Nodup := by
  unfold buildPodNodeAllVifs
  refine foldl_invariant (fun m => (m.map Prod.fst).Nodup) _ ?_ rd.idToPodNode
    newIDToVifs (by simp [newIDToVifs])
  intro m pid hm
  have hinner : ∀ (pods : List Int) (m1 : IDToVifs), (m1.map Prod.fst).Nodup →
      ((pods.foldl
          (fun m2 podID =>
            match alLookup rd.podIDToVifs podID with
            | some vifs => IDToVifs.add m2 pid vifs
            | none => m2)
          m1).map Prod.fst).Nodup := by
    intro pods m1 h1
    refine foldl_invariant (fun m => (m.map Prod.fst).Nodup) _ ?_ pods m1 h1
    intro b a hb
    cases hp : alLookup rd.podIDToVifs a with
    | none => simpa [hp] using hb
    | some vifs =>
        simp only [hp]
        exact keys_nodup_IDToVifsAdd b pid vifs hb
  cases h1 : alLookup rd.podNodeIDToVifs pid with
  | none =>
      cases h2 : alLookup rd.podNodeIDtoPodIDs pid with
      | none => simpa [h1, h2] using hm
      | some pods =>
          simp only [h1, h2]
          exact hinner pods m hm
  | some vifs =>
      cases h2 : alLookup rd.podNodeIDtoPodIDs pid with
      | none =>
          simp only [h1, h2]
          exact keys_nodup_IDToVifsAdd m pid vifs hm
      | some pods =>
          simp only [h1, h2]
          exact hinner pods _ (keys_nodup_IDToVifsAdd m pid vifs hm)

/-! ### The built engine's index fields -/

theorem build_host_field (s : Segment) (rd : PlatformRawData) :
    (generateBaseSegments s rd).hostIDToSegments = buildVifsIndex rd.hostIDToVifs := rfl

theorem build_gateway_field (s : Segment) (rd : PlatformRawData) :
    (generateBaseSegments s rd).gatewayHostIDToSegments
      = buildVifsIndex rd.gatewayHostIDToVifs := rfl

theorem build_pnclo_field (s : Segment) (rd : PlatformRawData) :
    (generateBaseSegments s rd).podNodeIDToAllVifs = buildPodNodeAllVifs rd := rfl

theorem build_vmclo_field (s : Segment) (rd : PlatformRawData) :
    (generateBaseSegments s rd).vmIDToPodNodeAllVifs
      = buildVmPodNodeAllVifs rd (buildPodNodeAllVifs rd) := rfl

theorem build_vm_field (s : Segment) (rd : PlatformRawData) :
    (generateBaseSegments s rd).vmIDToSegments
      = buildVMIDToSegments rd (buildVmPodNodeAllVifs rd (buildPodNodeAllVifs rd)) := rfl

theorem build_server_field (s : Segment) (rd : PlatformRawData) :
    (generateBaseSegments s rd).launchServerToSegments
      = buildLaunchServerToSegments rd (buildVmPodNodeAllVifs rd (buildPodNodeAllVifs rd)) := rfl

theorem build_podnodeidx_field (s : Segment) (rd : PlatformRawData) :
    (generateBaseSegments s rd).podNodeIDToSegments
      = buildVifsIndex (buildPodNodeAllVifs rd) := rfl

theorem getSegmentsByID_fst (t : IDToNetworkMacs) (k : Int) (s : Segment)
    (nm : NetworkMacs) (h : alLookup t k = some nm) :
    (getSegmentsByID t k s).1 = nm.map segOfNetwork := by
  rw [getSegmentsByID_eq, h]

theorem getSegmentsByServer_fst (t : ServerToNetworkMacs) (srv : String) (s : Segment)
    (nm : NetworkMacs) (h : alLookup t srv = some nm) :
    (getSegmentsByServer t srv s).1 = nm.map segOfNetwork := by
  rw [getSegmentsByServer_eq, h]

/-- The segment ids produced by resolving a grouped index entry are exactly
the first-occurrence-deduplicated network ids of the entity's indexable
interfaces, each taken once. -/
theorem segs_id_characterization (entity : List VInterface)
    (segs : List TridentSegment)
    (hs : segs = (addAllVifs newNetworkMacs entity).map segOfNetwork)
    (hok : ∀ v ∈ entity, 0 ≤ v.networkID ∧ v.networkID < 4294967296) :
    segs.map (fun g => (g.id : Int)) = firstDedup (presentNets entity) ∧
    (segs.map TridentSegment.id).Nodup := by
  subst hs
  have hkeys := keys_addAllVifs_nil entity
  have hmain : ((addAllVifs newNetworkMacs entity).map segOfNetwork).map
      (fun g => (g.id : Int)) = firstDedup (presentNets entity) := by
    rw [List.map_map]
    have h1 : ((addAllVifs newNetworkMacs entity).map
        ((fun g : TridentSegment => (g.id : Int)) ∘ segOfNetwork))
        = ((addAllVifs newNetworkMacs entity).map Prod.fst).map
            (fun n => ((u32 n : Nat) : Int)) := by
      rw [List.map_map]
      rfl
    rw [h1, hkeys]
    have h2 : ∀ n ∈ firstDedup (presentNets entity), ((u32 n : Nat) : Int) = n := by
      intro n hn
      have hn2 := mem_firstDedup hn
      unfold presentNets at hn2
      rcases List.mem_map.mp hn2 with ⟨v, hv, hvn⟩
      have hv2 := List.mem_of_mem_filter hv
      rcases hok v hv2 with ⟨ha, hb⟩
      rw [← hvn]
      exact u32_coe_eq ha hb
    rw [List.map_congr_left h2]
    simp
  refine ⟨hmain, ?_⟩
  have h3 : (((addAllVifs newNetworkMacs entity).map segOfNetwork).map
      TridentSegment.id).map (fun n : Nat => (n : Int))
      = firstDedup (presentNets entity) := by
    rw [List.map_map, List.map_map]
    have hc : (((fun n : Nat => (n : Int)) ∘ TridentSegment.id) ∘ segOfNetwork)
        = ((fun g : TridentSegment => (g.id : Int)) ∘ segOfNetwork) := rfl
    rw [hc, ← List.map_map, hmain]
  have h4 := h3 ▸ firstDedup_nodup (presentNets entity)
  exact h4.of_map _

/-- C2: for every entity key known to its index, byHostID / byVMID /
byPodNodeID / byLaunchServer return exactly one SegmentView per distinct
network id present for that entity, and each SegmentView's id equals that
network id (the snapshot maps carry Go-map-distinct keys and in-range
network ids). -/
theorem per_network_id_convention (s : Segment) (rd : PlatformRawData)
    (hID vmID pnID : Int) (srv : String)
    (hvifs vvifs nvifs : VifSet) (vmids : List Int)
    (hndH : (rd.hostIDToVifs.map Prod.fst).Nodup)
    (hndV : (rd.vmIDToVifs.map Prod.fst).Nodup)
    (hndS : (rd.serverToVmIDs.map Prod.fst).Nodup)
    (hH : alLookup rd.hostIDToVifs hID = some hvifs)
    (hV : alLookup rd.vmIDToVifs vmID = some vvifs)
    (hS : alLookup rd.serverToVmIDs srv = some vmids)
    (hN : alLookup (generateBaseSegments s rd).podNodeIDToAllVifs pnID = some nvifs)
    (hokH : ∀ v ∈ hvifs, 0 ≤ v.networkID ∧ v.networkID < 4294967296)
    (hokV : ∀ v ∈ vvifs ++
        optVifs (generateBaseSegments s rd).vmIDToPodNodeAllVifs vmID,
      0 ≤ v.networkID ∧ v.networkID < 4294967296)
    (hokS : ∀ v ∈ serverEntityVifs rd.vmIDToVifs
        (generateBaseSegments s rd).vmIDToPodNodeAllVifs vmids,
      0 ≤ v.networkID ∧ v.networkID < 4294967296)
    (hokN : ∀ v ∈ nvifs, 0 ≤ v.networkID ∧ v.networkID < 4294967296) :
    ((GetHostIDSegments (generateBaseSegments s rd) hID).1.map
        (fun g => (g.id : Int)) = firstDedup (presentNets hvifs) ∧
      ((GetHostIDSegments (generateBaseSegments s rd) hID).1.map
        TridentSegment.id).Nodup) ∧
    ((GetVMIDSegments (generateBaseSegments s rd) vmID).1.map
        (fun g => (g.id : Int)) = firstDedup (presentNets (vvifs ++
          optVifs (generateBaseSegments s rd).vmIDToPodNodeAllVifs vmID)) ∧
      ((GetVMIDSegments (generateBaseSegments s rd) vmID).1.map
        TridentSegment.id).Nodup) ∧
    ((GetPodNodeSegments (generateBaseSegments s rd) pnID).1.map
        (fun g => (g.id : Int)) = firstDedup (presentNets nvifs) ∧
      ((GetPodNodeSegments (generateBaseSegments s rd) pnID).1.map
        TridentSegment.id).Nodup) ∧
    ((GetLaunchServerSegments (generateBaseSegments s rd) srv).1.map
        (fun g => (g.id : Int)) = firstDedup (presentNets
          (serverEntityVifs rd.vmIDToVifs
            (generateBaseSegments s rd).vmIDToPodNodeAllVifs vmids)) ∧
      ((GetLaunchServerSegments (generateBaseSegments s rd) srv).1.map
        TridentSegment.id).Nodup) := by
  refine ⟨?_, ?_, ?_, ?_⟩
  · have hl : alLookup (generateBaseSegments s rd).hostIDToSegments hID
        = some (addAllVifs newNetworkMacs hvifs) := by
      rw [build_host_field]
      exact buildVifsIndex_lookup rd.hostIDToVifs hID hvifs hndH hH
    have hfst : (GetHostIDSegments (generateBaseSegments s rd) hID).1
        = (addAllVifs newNetworkMacs hvifs).map segOfNetwork :=
      getSegmentsByID_fst _ _ _ _ hl
    exact segs_id_characterization hvifs _ hfst hokH
  · have hl : alLookup (generateBaseSegments s rd).vmIDToSegments vmID
        = some (addAllVifs newNetworkMacs (vvifs ++
            optVifs (generateBaseSegments s rd).vmIDToPodNodeAllVifs vmID)) := by
      rw [build_vm_field, build_vmclo_field]
      exact buildVMIDToSegments_lookup rd _ vmID vvifs hndV hV
    have hfst : (GetVMIDSegments (generateBaseSegments s rd) vmID).1
        = (addAllVifs newNetworkMacs (vvifs ++
            optVifs (generateBaseSegments s rd).vmIDToPodNodeAllVifs vmID)).map
            segOfNetwork :=
      getSegmentsByID_fst _ _ _ _ hl
    exact segs_id_characterization _ _ hfst hokV
  · have hv2 : alLookup (buildPodNodeAllVifs rd) pnID = some nvifs := by
      rw [← build_pnclo_field s rd]
      exact hN
    have hl : alLookup (generateBaseSegments s rd).podNodeIDToSegments pnID
        = some (addAllVifs newNetworkMacs nvifs) := by
      rw [build_podnodeidx_field]
      exact buildVifsIndex_lookup _ pnID nvifs (keys_nodup_buildPodNodeAllVifs rd) hv2
    have hfst : (GetPodNodeSegments (generateBaseSegments s rd) pnID).1
        = (addAllVifs newNetworkMacs nvifs).map segOfNetwork :=
      getSegmentsByID_fst _ _ _ _ hl
    exact segs_id_characterization nvifs _ hfst hokN
  · have hl : alLookup (generateBaseSegments s rd).launchServerToSegments srv
        = some (addAllVifs newNetworkMacs (serverEntityVifs rd.vmIDToVifs
            (generateBaseSegments s rd).vmIDToPodNodeAllVifs vmids)) := by
      rw [build_server_field, build_vmclo_field]
      exact buildLaunchServerToSegments_lookup rd _ srv vmids hndS hS
    have hfst : (GetLaunchServerSegments (generateBaseSegments s rd) srv).1
        = (addAllVifs newNetworkMacs (serverEntityVifs rd.vmIDToVifs
            (generateBaseSegments s rd).vmIDToPodNodeAllVifs vmids)).map
            segOfNetwork :=
      getSegmentsByServer_fst _ _ _ _ hl
    exact segs_id_characterization _ _ hfst hokS

theorem per_network_id_convention_witness :
    ((GetHostIDSegments (generateBaseSegments newSegment rdFull) 100).1.map
        (fun g => (g.id : Int)) = [10]) ∧
    ((GetVMIDSegments (generateBaseSegments newSegment rdFull) 200).1.map
        (fun g => (g.id : Int)) = [10, 20]) ∧
    ((GetPodNodeSegments (generateBaseSegments newSegment rdFull) 300).1.map
        (fun g => (g.id : Int)) = [20]) ∧
    ((GetLaunchServerSegments (generateBaseSegments newSegment rdFull) srvFull).1.map
        (fun g => (g.id : Int)) = [10, 20]) ∧
    ((GetVMIDSegments (generateBaseSegments newSegment rdFull) 200).1.map
        TridentSegment.id).Nodup := by
  have h := per_network_id_convention newSegment rdFull 100 200 300 srvFull
    [vifH] [vifV] [vifN, vifP] [200]
    (by decide) (by decide) (by decide)
    (by decide) (by decide) (by decide) (by decide)
    (by decide) (by decide) (by decide) (by decide)
  exact ⟨h.1.1.trans (by decide), h.2.1.1.trans (by decide),
    h.2.2.1.1.trans (by decide), h.2.2.2.1.trans (by decide), h.2.1.2⟩

/-- C5 counterexample: an interface with an empty MAC (id 5) is indeed
excluded from its host's entity query, but `GenerateNoVTapUsedSegments`
still returns it — it scans the raw device list without a MAC filter, so
"no query ever returns it, in any index" fails as stated. -/
theorem empty_mac_counterexample :
    (GetHostIDSegments
      (ClearVTapUsedVInterfaceIDs (generateBaseSegments newSegment rdE)) 7).1 = [] ∧
    (GenerateNoVTapUsedSegments
        (GetHostIDSegments
          (ClearVTapUsedVInterfaceIDs (generateBaseSegments newSegment rdE)) 7).2
        rdE).notVtapUsedSegments
      = [{ id := 1, mac := [""], interfaceId := [5] }] := by
  decide

theorem foldl_invariant_mem {α β : Type} (P : β → Prop) (f : β → α → β) :
    ∀ (l : List α), (∀ b a, a ∈ l → P b → P (f b a)) → ∀ b, P b → P (l.foldl f b) := by
  intro l
  induction l with
  | nil => intro _ b hb; exact hb
  | cons x t ih =>
      intro hf b hb
      exact ih (fun b a ha hb2 => hf b a (List.mem_cons_of_mem _ ha) hb2) _
        (hf b x (List.mem_cons_self _ _) hb)

theorem all_snd_alSet {α β : Type} [DecidableEq α] (P : β → Prop)
    {t : List (α × β)} {k : α} {v : β}
    (ht : ∀ q ∈ t, P q.2) (hv : P v) : ∀ q ∈ alSet t k v, P q.2 := by
  intro q hq
  rcases mem_of_mem_alSet hq with h | h
  · rw [h]
    exact hv
  · exact ht q h

theorem nmMacsOK_add {nm : NetworkMacs} (v : VInterface) (h : nmMacsOK nm) :
    nmMacsOK (NetworkMacs.add nm v) := by
  unfold NetworkMacs.add
  by_cases hm : v.mac = ""
  · simpa [hm] using h
  · rw [if_neg hm]
    cases hl : alLookup nm v.networkID with
    | some l =>
        intro p hp m hmem
        rcases mem_of_mem_alSet hp with hcase | hcase
        · subst hcase
          rcases List.mem_append.mp hmem with h1 | h1
          · exact h _ (mem_of_alLookup_eq_some hl) m h1
          · rw [List.mem_singleton.mp h1]
            exact hm
        · exact h p hcase m hmem
    | none =>
        intro p hp m hmem
        rcases mem_of_mem_alSet hp with hcase | hcase
        · subst hcase
          rw [List.mem_singleton.mp hmem]
          exact hm
        · exact h p hcase m hmem

theorem nmMacsOK_addAll {nm : NetworkMacs} (vifs : List VInterface)
    (h : nmMacsOK nm) : nmMacsOK (addAllVifs nm vifs) :=
  foldl_invariant (fun n => nmMacsOK n) _ (fun _ a hb => nmMacsOK_add a hb) vifs nm h

theorem nmMacsOK_nil : nmMacsOK newNetworkMacs := by
  intro p hp
  cases hp

theorem idxMacsOK_buildVifsIndex (entries : List (Int × VifSet)) :
    ∀ q ∈ buildVifsIndex entries, nmMacsOK q.2 := by
  refine foldl_invariant (fun t => ∀ q ∈ t, nmMacsOK q.2) _ ?_ entries
    newIDToNetworkMacs ?_
  · intro b p hb
    exact all_snd_alSet _ hb (nmMacsOK_addAll _ nmMacsOK_nil)
  · intro q hq
    cases hq

theorem idxMacsOK_buildVM (rd : PlatformRawData) (clo : IDToVifs) :
    ∀ q ∈ buildVMIDToSegments rd clo, nmMacsOK q.2 := by
  refine foldl_invariant (fun t => ∀ q ∈ t, nmMacsOK q.2) _ ?_ rd.vmIDToVifs
    newIDToNetworkMacs ?_
  · intro b p hb
    refine all_snd_alSet _ hb ?_
    cases hc : alLookup clo p.1 with
    | none => simp only [hc]; exact nmMacsOK_addAll _ nmMacsOK_nil
    | some podVifs =>
        simp only [hc]
        exact nmMacsOK_addAll _ (nmMacsOK_addAll _ nmMacsOK_nil)
  · intro q hq
    cases hq

theorem idxMacsOK_buildServer (rd : PlatformRawData) (clo : IDToVifs) :
    ∀ q ∈ buildLaunchServerToSegments rd clo, nmMacsOK q.2 := by
  refine foldl_invariant (fun t => ∀ q ∈ t, nmMacsOK q.2) _ ?_ rd.serverToVmIDs
    newServerToNetworkMacs ?_
  · intro b p hb
    refine all_snd_alSet _ hb ?_
    refine foldl_invariant (fun nm => nmMacsOK nm) _ ?_ p.2 newNetworkMacs nmMacsOK_nil
    intro nm vmid hnm
    cases h1 : alLookup rd.vmIDToVifs vmid with
    | none =>
        cases h2 : alLookup clo vmid with
        | none => simpa [h1, h2] using hnm
        | some vifs => simp only [h1, h2]; exact nmMacsOK_addAll _ hnm
    | some vifs =>
        cases h2 : alLookup clo vmid with
        | none => simp only [h1, h2]; exact nmMacsOK_addAll _ hnm
        | some vifs2 =>
            simp only [h1, h2]
            exact nmMacsOK_addAll _ (nmMacsOK_addAll _ hnm)
  · intro q hq
    cases hq

theorem resolve_macs_ok (t : IDToNetworkMacs) (k : Int) (s : Segment)
    (hok : ∀ q ∈ t, nmMacsOK q.2) :
    ∀ seg ∈ (getSegmentsByID t k s).1, ∀ mc ∈ seg.mac, ¬ mc = "" := by
  intro seg hseg mc hmc
  rw [getSegmentsByID_eq] at hseg
  cases hl : alLookup t k with
  | none => simp only [hl] at hseg; cases hseg
  | some nm =>
      simp only [hl] at hseg
      rcases List.mem_map.mp hseg with ⟨p, hp, hpe⟩
      subst hpe
      rcases List.mem_map.mp hmc with ⟨m, hm, hme⟩
      subst hme
      exact hok _ (mem_of_alLookup_eq_some hl) p hp m hm

theorem resolveSrv_macs_ok (t : ServerToNetworkMacs) (srv : String) (s : Segment)
    (hok : ∀ q ∈ t, nmMacsOK q.2) :
    ∀ seg ∈ (getSegmentsByServer t srv s).1, ∀ mc ∈ seg.mac, ¬ mc = "" := by
  intro seg hseg mc hmc
  rw [getSegmentsByServer_eq] at hseg
  cases hl : alLookup t srv with
  | none => simp only [hl] at hseg; cases hseg
  | some nm =>
      simp only [hl] at hseg
      rcases List.mem_map.mp hseg with ⟨p, hp, hpe⟩
      subst hpe
      rcases List.mem_map.mp hmc with ⟨m, hm, hme⟩
      subst hme
      exact hok _ (mem_of_alLookup_eq_some hl) p hp m hm

theorem typeVMFold_macs (nm : NetworkMacs) (hnm : nmMacsOK nm)
    (a : List String × List Nat × List Int) (ha : ∀ mc ∈ a.1, ¬ mc = "") :
    ∀ mc ∈ (nm.foldl
      (fun acc (p : Int × List MacID) =>
        p.2.foldl
          (fun acc2 (m : MacID) =>
            (acc2.1 ++ [m.mac], acc2.2.1 ++ [u32 m.id], intSetAdd acc2.2.2 m.id))
          acc)
      a).1, ¬ mc = "" := by
  refine foldl_invariant_mem (fun a => ∀ mc ∈ a.1, ¬ mc = "") _ nm ?_ a ha
  intro b p hp hb
  refine foldl_invariant_mem (fun a => ∀ mc ∈ a.1, ¬ mc = "") _ p.2 ?_ b hb
  intro b2 m hm hb2 mc hmc
  rcases List.mem_append.mp hmc with h1 | h1
  · exact hb2 mc h1
  · rw [List.mem_singleton.mp h1]
    exact hnm p hp m hm

theorem gwFold_macs (t : IDToNetworkMacs) (hok : ∀ q ∈ t, nmMacsOK q.2)
    (acc : List TridentSegment) (hacc : ∀ g ∈ acc, ∀ mc ∈ g.mac, ¬ mc = "") :
    ∀ g ∈ t.foldl
        (fun acc (p : Int × NetworkMacs) =>
          p.2.foldl
            (fun acc2 (q : Int × List MacID) =>
              acc2 ++ [{ id := 1
                         mac := q.2.map MacID.mac
                         interfaceId := q.2.map (fun m => u32 m.id) : TridentSegment }])
            acc)
        acc, ∀ mc ∈ g.mac, ¬ mc = "" := by
  refine foldl_invariant_mem (fun a => ∀ g ∈ a, ∀ mc ∈ g.mac, ¬ mc = "") _ t ?_ acc hacc
  intro b p hp hb
  refine foldl_invariant_mem (fun a => ∀ g ∈ a, ∀ mc ∈ g.mac, ¬ mc = "") _ p.2 ?_ b hb
  intro b2 q hq hb2 g hg mc hmc
  rcases List.mem_append.mp hg with h1 | h1
  · exact hb2 g h1 mc hmc
  · rw [List.mem_singleton.mp h1] at hmc
    rcases List.mem_map.mp hmc with ⟨m, hm, hme⟩
    rw [← hme]
    exact hok p hp q hq m hm

theorem typeVM_macs_ok (s2 : Segment) (ls : String) (hID : Int)
    (hsrv : ∀ q ∈ s2.launchServerToSegments, nmMacsOK q.2)
    (hhost : ∀ q ∈ s2.hostIDToSegments, nmMacsOK q.2) :
    ∀ seg ∈ (GetTypeVMSegments s2 ls hID).1, ∀ mc ∈ seg.mac, ¬ mc = "" := by
  unfold GetTypeVMSegments
  simp only
  cases h1 : alLookup s2.launchServerToSegments ls with
  | none =>
      cases h2 : alLookup s2.hostIDToSegments hID with
      | none =>
          simp only [h1, h2]
          intro seg hseg mc hmc
          rw [List.mem_singleton.mp hseg] at hmc
          cases hmc
      | some nm2 =>
          simp only [h1, h2]
          intro seg hseg mc hmc
          rw [List.mem_singleton.mp hseg] at hmc
          refine typeVMFold_macs nm2 (hhost _ (mem_of_alLookup_eq_some h2)) _
            ?_ mc hmc
          intro mc2 hmc2
          cases hmc2
  | some nm1 =>
      have hnm1 : nmMacsOK nm1 := hsrv _ (mem_of_alLookup_eq_some h1)
      cases h2 : alLookup s2.hostIDToSegments hID with
      | none =>
          simp only [h1, h2]
          intro seg hseg mc hmc
          rw [List.mem_singleton.mp hseg] at hmc
          refine typeVMFold_macs nm1 hnm1 _ ?_ mc hmc
          intro mc2 hmc2
          cases hmc2
      | some nm2 =>
          simp only [h1, h2]
          intro seg hseg mc hmc
          rw [List.mem_singleton.mp hseg] at hmc
          refine typeVMFold_macs nm2 (hhost _ (mem_of_alLookup_eq_some h2)) _
            (typeVMFold_macs nm1 hnm1 _ ?_) mc hmc
          intro mc2 hmc2
          cases hmc2

/-- C5 amended: an interface with an empty MAC is excluded from all entity
indexing, so every MAC returned by the entity queries, by the combined VM
query and by the cached gateway segments of a built engine is non-empty;
only `GenerateNoVTapUsedSegments` can still return it (see the
counterexample). -/
theorem empty_mac_excluded_amended (s : Segment) (rd : PlatformRawData)
    (k vmID pnID hID : Int) (srv ls : String) :
    ((GetHostIDSegments (generateBaseSegments s rd) k).1.all
        (fun seg => seg.mac.all (fun mc => !(mc == "")))) = true ∧
    ((GetVMIDSegments (generateBaseSegments s rd) vmID).1.all
        (fun seg => seg.mac.all (fun mc => !(mc == "")))) = true ∧
    ((GetPodNodeSegments (generateBaseSegments s rd) pnID).1.all
        (fun seg => seg.mac.all (fun mc => !(mc == "")))) = true ∧
    ((GetLaunchServerSegments (generateBaseSegments s rd) srv).1.all
        (fun seg => seg.mac.all (fun mc => !(mc == "")))) = true ∧
    ((GetTypeVMSegments (generateBaseSegments s rd) ls hID).1.all
        (fun seg => seg.mac.all (fun mc => !(mc == "")))) = true ∧
    ((GetAllGatewayHostSegments (generateBaseSegments s rd)).1.all
        (fun seg => seg.mac.all (fun mc => !(mc == "")))) = true := by
  have hconv : ∀ (l : List TridentSegment),
      (∀ g ∈ l, ∀ mc ∈ g.mac, ¬ mc = "") →
      (l.all (fun seg => seg.mac.all (fun mc => !(mc == "")))) = true := by
    intro l hl
    rw [List.all_eq_true]
    intro g hg
    rw [List.all_eq_true]
    intro mc hmc
    simp only [Bool.not_eq_eq_eq_not, Bool.not_true, beq_eq_false_iff_ne, ne_eq]
    exact hl g hg mc hmc
  refine ⟨?_, ?_, ?_, ?_, ?_, ?_⟩
  · exact hconv _ (resolve_macs_ok _ k _ (by
      rw [build_host_field]
      exact idxMacsOK_buildVifsIndex rd.hostIDToVifs))
  · exact hconv _ (resolve_macs_ok _ vmID _ (by
      rw [build_vm_field]
      exact idxMacsOK_buildVM rd _))
  · exact hconv _ (resolve_macs_ok _ pnID _ (by
      rw [build_podnodeidx_field]
      exact idxMacsOK_buildVifsIndex _))
  · exact hconv _ (resolveSrv_macs_ok _ srv _ (by
      rw [build_server_field]
      exact idxMacsOK_buildServer rd _))
  · refine hconv _ ?_
    refine typeVM_macs_ok (generateBaseSegments s rd) ls hID ?_ ?_
    · rw [build_server_field]
      exact idxMacsOK_buildServer rd _
    · rw [build_host_field]
      exact idxMacsOK_buildVifsIndex rd.hostIDToVifs
  · refine hconv _ ?_
    have hgw := gwFold_macs (buildVifsIndex rd.gatewayHostIDToVifs)
      (idxMacsOK_buildVifsIndex rd.gatewayHostIDToVifs) [] (by intro g hg; cases hg)
    exact hgw

/-! ### Set-membership characterizations for the closure maps -/

theorem mem_vifSetAdd_iff {s : VifSet} {v w : VInterface} :
    w ∈ vifSetAdd s v ↔ w ∈ s ∨ w = v := by
  unfold vifSetAdd
  split
  · rename_i hv
    constructor
    · exact fun h => Or.inl h
    · rintro (h | h)
      · exact h
      · exact h ▸ hv
  · simp [List.mem_append]

theorem mem_vifSetUnion_iff : ∀ {t s : VifSet} {w : VInterface},
    w ∈ vifSetUnion s t ↔ w ∈ s ∨ w ∈ t := by
  intro t
  induction t with
  | nil => intro s w; simp [vifSetUnion]
  | cons v t2 ih =>
      intro s w
      have h1 : vifSetUnion s (v :: t2) = vifSetUnion (vifSetAdd s v) t2 := rfl
      rw [h1, ih, mem_vifSetAdd_iff]
      simp [List.mem_cons]
      tauto

theorem optVifs_add_ne (m : IDToVifs) (k k2 : Int) (vifs : VifSet) (h : k ≠ k2) :
    optVifs (IDToVifs.add m k vifs) k2 = optVifs m k2 := by
  unfold IDToVifs.add optVifs
  cases hl : alLookup m k <;> simp [alLookup_alSet_ne _ _ h]

theorem mem_optVifs_add_self {m : IDToVifs} {k : Int} {vifs : VifSet}
    {w : VInterface} :
    w ∈ optVifs (IDToVifs.add m k vifs) k ↔ w ∈ optVifs m k ∨ w ∈ vifs := by
  unfold IDToVifs.add optVifs
  cases hl : alLookup m k with
  | some cur => simp [hl, alLookup_alSet_self, mem_vifSetUnion_iff]
  | none => simp [hl, alLookup_alSet_self]

theorem mem_optVifs_add_iff {m : IDToVifs} {k : Int} {vifs : VifSet}
    {k2 : Int} {w : VInterface} :
    w ∈ optVifs (IDToVifs.add m k vifs) k2 ↔
      w ∈ optVifs m k2 ∨ (k = k2 ∧ w ∈ vifs) := by
  by_cases h : k = k2
  · subst h
    rw [mem_optVifs_add_self]
    simp
  · rw [optVifs_add_ne _ _ _ _ h]
    simp [h]

theorem mem_podNodeInnerFold_iff (rd : PlatformRawData) (i : Int) :
    ∀ (pods : List Int) (m : IDToVifs) (pn : Int) (w : VInterface),
      w ∈ optVifs (pods.foldl
        (fun m2 podID =>
          match alLookup rd.podIDToVifs podID with
          | some vifs => IDToVifs.add m2 i vifs
          | none => m2) m) pn ↔
      w ∈ optVifs m pn ∨
        (i = pn ∧ ∃ pid ∈ pods, w ∈ optVifs rd.podIDToVifs pid) := by
  intro pods
  induction pods with
  | nil => intro m pn w; simp
  | cons pid t ih =>
      intro m pn w
      rw [List.foldl_cons, ih]
      have hstep : w ∈ optVifs
          (match alLookup rd.podIDToVifs pid with
           | some vifs => IDToVifs.add m i vifs
           | none => m) pn ↔
          w ∈ optVifs m pn ∨ (i = pn ∧ w ∈ optVifs rd.podIDToVifs pid) := by
        cases hp : alLookup rd.podIDToVifs pid with
        | none => simp [hp, optVifs]
        | some vifs =>
            simp only [hp]
            rw [mem_optVifs_add_iff]
            simp [optVifs, hp]
      rw [hstep]
      simp only [List.exists_mem_cons_iff]
      tauto

theorem mem_pnStep_iff (rd : PlatformRawData) (m : IDToVifs) (i pn : Int)
    (w : VInterface) :
    w ∈ optVifs
      (let m1 := match alLookup rd.podNodeIDToVifs i with
        | some vifs => IDToVifs.add m i vifs
        | none => m
       match alLookup rd.podNodeIDtoPodIDs i with
       | some podIDs =>
           podIDs.foldl
             (fun m2 podID =>
               match alLookup rd.podIDToVifs podID with
               | some vifs => IDToVifs.add m2 i vifs
               | none => m2)
             m1
       | none => m1) pn ↔
    w ∈ optVifs m pn ∨ (i = pn ∧ (w ∈ optVifs rd.podNodeIDToVifs i ∨
      ∃ pid ∈ optPods rd.podNodeIDtoPodIDs i, w ∈ optVifs rd.podIDToVifs pid)) := by
  have hm1 : w ∈ optVifs
      (match alLookup rd.podNodeIDToVifs i with
       | some vifs => IDToVifs.add m i vifs
       | none => m) pn ↔
      w ∈ optVifs m pn ∨ (i = pn ∧ w ∈ optVifs rd.podNodeIDToVifs i) := by
    cases hd : alLookup rd.podNodeIDToVifs i with
    | none => simp [hd, optVifs]
    | some vifs =>
        simp only [hd]
        rw [mem_optVifs_add_iff]
        simp [optVifs, hd]
  cases hp : alLookup rd.podNodeIDtoPodIDs i with
  | none =>
      simp only [hp]
      rw [hm1]
      simp [optPods, hp]
  | some pods =>
      simp only [hp]
      rw [mem_podNodeInnerFold_iff, hm1]
      simp only [optPods, hp]
      tauto

theorem mem_buildPodNodeAllVifs_iff (rd : PlatformRawData) (pn : Int)
    (w : VInterface) :
    w ∈ optVifs (buildPodNodeAllVifs rd) pn ↔
      pn ∈ rd.idToPodNode ∧ (w ∈ optVifs rd.podNodeIDToVifs pn ∨
        ∃ pid ∈ optPods rd.podNodeIDtoPodIDs pn,
          w ∈ optVifs rd.podIDToVifs pid) := by
  suffices h : ∀ (ids : List Int) (acc : IDToVifs),
      w ∈ optVifs (ids.foldl
        (fun m podnodeID =>
          let m1 := match alLookup rd.podNodeIDToVifs podnodeID with
            | some vifs => IDToVifs.add m podnodeID vifs
            | none => m
          match alLookup rd.podNodeIDtoPodIDs podnodeID with
          | some podIDs =>
              podIDs.foldl
                (fun m2 podID =>
                  match alLookup rd.podIDToVifs podID with
                  | some vifs => IDToVifs.add m2 podnodeID vifs
                  | none => m2)
                m1
          | none => m1) acc) pn ↔
        w ∈ optVifs acc pn ∨ (pn ∈ ids ∧ (w ∈ optVifs rd.podNodeIDToVifs pn ∨
          ∃ pid ∈ optPods rd.podNodeIDtoPodIDs pn,
            w ∈ optVifs rd.podIDToVifs pid)) by
    have h2 := h rd.idToPodNode newIDToVifs
    rw [show optVifs newIDToVifs pn = [] from rfl] at h2
    simpa using h2
  intro ids
  induction ids with
  | nil => intro acc; simp
  | cons i t ih =>
      intro acc
      rw [List.foldl_cons, ih, mem_pnStep_iff]
      constructor
      · rintro ((h | ⟨hip, hd⟩) | ⟨hpt, hd⟩)
        · exact Or.inl h
        · subst hip
          exact Or.inr ⟨List.mem_cons_self _ _, hd⟩
        · exact Or.inr ⟨List.mem_cons_of_mem _ hpt, hd⟩
      · rintro (h | ⟨hmem, hd⟩)
        · exact Or.inl (Or.inl h)
        · rcases List.mem_cons.mp hmem with he | ht
          · subst he
            exact Or.inl (Or.inr ⟨rfl, hd⟩)
          · exact Or.inr ⟨ht, hd⟩

theorem mem_buildVmPodNodeAllVifs_iff (rd : PlatformRawData) (pnclo : IDToVifs)
    (vm : Int) (w : VInterface) :
    w ∈ optVifs (buildVmPodNodeAllVifs rd pnclo) vm ↔
      ∃ pr ∈ rd.podNodeIDToVmID, pr.2 = vm ∧ w ∈ optVifs pnclo pr.1 := by
  suffices h : ∀ (entries : List (Int × Int)) (acc : IDToVifs),
      w ∈ optVifs (entries.foldl
        (fun m p =>
          match alLookup pnclo p.1 with
          | some allVifs => IDToVifs.add m p.2 allVifs
          | none => m) acc) vm ↔
        w ∈ optVifs acc vm ∨
          ∃ pr ∈ entries, pr.2 = vm ∧ w ∈ optVifs pnclo pr.1 by
    have h2 := h rd.podNodeIDToVmID newIDToVifs
    rw [show optVifs newIDToVifs vm = [] from rfl] at h2
    simpa using h2
  intro entries
  induction entries with
  | nil => intro acc; simp
  | cons p t ih =>
      intro acc
      rw [List.foldl_cons, ih]
      have hstep : w ∈ optVifs
          (match alLookup pnclo p.1 with
           | some allVifs => IDToVifs.add acc p.2 allVifs
           | none => acc) vm ↔
          w ∈ optVifs acc vm ∨ (p.2 = vm ∧ w ∈ optVifs pnclo p.1) := by
        cases hc : alLookup pnclo p.1 with
        | none => simp [hc, optVifs]
        | some allVifs =>
            simp only [hc]
            rw [mem_optVifs_add_iff]
            simp [optVifs, hc]
      rw [hstep]
      simp only [List.exists_mem_cons_iff]
      tauto

theorem mem_NetworkMacsAdd_iff (nm : NetworkMacs) (v : VInterface) (nid : Int)
    (mc : MacID) :
    (∃ l, alLookup (NetworkMacs.add nm v) nid = some l ∧ mc ∈ l) ↔
      (∃ l, alLookup nm nid = some l ∧ mc ∈ l) ∨
      (¬ v.mac = "" ∧ v.networkID = nid ∧ newMacID v = mc) := by
  unfold NetworkMacs.add
  by_cases hm : v.mac = ""
  · simp [hm]
  · rw [if_neg hm]
    by_cases hn : v.networkID = nid
    · subst hn
      cases hl : alLookup nm v.networkID with
      | some l0 =>
          simp only [hl]
          constructor
          · rintro ⟨l, hle, hml⟩
            rw [alLookup_alSet_self] at hle
            cases hle
            rcases List.mem_append.mp hml with h1 | h1
            · exact Or.inl ⟨l0, rfl, h1⟩
            · exact Or.inr ⟨hm, trivial, (List.mem_singleton.mp h1).symm⟩
          · rintro (⟨l, hle, hml⟩ | ⟨_, _, hmc⟩)
            · cases hle
              exact ⟨l0 ++ [newMacID v], alLookup_alSet_self _ _ _,
                List.mem_append_left _ hml⟩
            · exact ⟨l0 ++ [newMacID v], alLookup_alSet_self _ _ _,
                List.mem_append_right _ (List.mem_singleton.mpr hmc.symm)⟩
      | none =>
          simp only [hl]
          constructor
          · rintro ⟨l, hle, hml⟩
            rw [alLookup_alSet_self] at hle
            cases hle
            exact Or.inr ⟨hm, trivial, (List.mem_singleton.mp hml).symm⟩
          · rintro (⟨l, hle, hml⟩ | ⟨_, _, hmc⟩)
            · cases hle
            · exact ⟨[newMacID v], alLookup_alSet_self _ _ _,
                List.mem_singleton.mpr hmc.symm⟩
    · cases hl : alLookup nm v.networkID <;>
        simp [alLookup_alSet_ne _ _ hn, hn]

theorem mem_addAllVifs_macID_iff :
    ∀ (vifs : List VInterface) (nm : NetworkMacs) (nid : Int) (mc : MacID),
      (∃ l, alLookup (addAllVifs nm vifs) nid = some l ∧ mc ∈ l) ↔
        (∃ l, alLookup nm nid = some l ∧ mc ∈ l) ∨
        ∃ v ∈ vifs, ¬ v.mac = "" ∧ v.networkID = nid ∧ newMacID v = mc := by
  intro vifs
  induction vifs with
  | nil => intro nm nid mc; simp [addAllVifs]
  | cons v t ih =>
      intro nm nid mc
      have h1 : addAllVifs nm (v :: t) = addAllVifs (NetworkMacs.add nm v) t := rfl
      rw [h1, ih, mem_NetworkMacsAdd_iff]
      constructor
      · rintro ((h | ⟨ha, hb, hc⟩) | ⟨v2, hv2, hd⟩)
        · exact Or.inl h
        · exact Or.inr ⟨v, List.mem_cons_self _ _, ha, hb, hc⟩
        · exact Or.inr ⟨v2, List.mem_cons_of_mem _ hv2, hd⟩
      · rintro (h | ⟨v2, hv2, hd⟩)
        · exact Or.inl (Or.inl h)
        · rcases List.mem_cons.mp hv2 with he | ht
          · subst he
            exact Or.inl (Or.inr hd)
          · exact Or.inr ⟨v2, ht, hd⟩

theorem segsHaveVif_of_mem (entity : List VInterface) (v : VInterface)
    (hv : v ∈ entity) (hm : ¬ v.mac = "") :
    segsHaveVif ((addAllVifs newNetworkMacs entity).map segOfNetwork) v := by
  have hmem := (mem_addAllVifs_macID_iff entity newNetworkMacs v.networkID
      (newMacID v)).mpr (Or.inr ⟨v, hv, hm, rfl, rfl⟩)
  rcases hmem with ⟨l, hl, hml⟩
  refine ⟨segOfNetwork (v.networkID, l),
    List.mem_map.mpr ⟨(v.networkID, l), mem_of_alLookup_eq_some hl, rfl⟩, ?_, ?_⟩
  · exact List.mem_map.mpr ⟨newMacID v, hml, rfl⟩
  · exact List.mem_map.mpr ⟨newMacID v, hml, rfl⟩

theorem macID_source :
    ∀ (vifs : List VInterface) (nm : NetworkMacs) (p : Int × List MacID)
      (mc : MacID), p ∈ addAllVifs nm vifs → mc ∈ p.2 →
      (∃ p0 ∈ nm, mc ∈ p0.2) ∨ ∃ v ∈ vifs, newMacID v = mc := by
  intro vifs
  induction vifs with
  | nil => intro nm p mc hp hmc; exact Or.inl ⟨p, hp, hmc⟩
  | cons v t ih =>
      intro nm p mc hp hmc
      rcases ih _ p mc hp hmc with h | h
      · rcases h with ⟨p0, hp0, hmc0⟩
        unfold NetworkMacs.add at hp0
        by_cases hm : v.mac = ""
        · rw [if_pos hm] at hp0
          exact Or.inl ⟨p0, hp0, hmc0⟩
        · rw [if_neg hm] at hp0
          cases hl : alLookup nm v.networkID with
          | some l0 =>
              simp only [hl] at hp0
              rcases mem_of_mem_alSet hp0 with he | he
              · subst he
                rcases List.mem_append.mp hmc0 with h2 | h2
                · exact Or.inl ⟨(v.networkID, l0), mem_of_alLookup_eq_some hl, h2⟩
                · exact Or.inr ⟨v, List.mem_cons_self _ _,
                    (List.mem_singleton.mp h2).symm⟩
              · exact Or.inl ⟨p0, he, hmc0⟩
          | none =>
              simp only [hl] at hp0
              rcases mem_of_mem_alSet hp0 with he | he
              · subst he
                exact Or.inr ⟨v, List.mem_cons_self _ _,
                  (List.mem_singleton.mp hmc0).symm⟩
              · exact Or.inl ⟨p0, he, hmc0⟩
      · rcases h with ⟨v2, hv2, he⟩
        exact Or.inr ⟨v2, List.mem_cons_of_mem _ hv2, he⟩

theorem segs_no_vifID (entity : List VInterface) (xid : Int)
    (hnone : ∀ v ∈ entity, ¬ u32 v.id = u32 xid) :
    ∀ seg ∈ (addAllVifs newNetworkMacs entity).map segOfNetwork,
      ¬ u32 xid ∈ seg.interfaceId := by
  intro seg hseg hbad
  rcases List.mem_map.mp hseg with ⟨p, hp, he⟩
  subst he
  rcases List.mem_map.mp hbad with ⟨m, hm, hum⟩
  rcases macID_source entity newNetworkMacs p m hp hm with h | h
  · rcases h with ⟨p0, hp0, _⟩
    cases hp0
  · rcases h with ⟨v2, hv2, he2⟩
    refine hnone v2 hv2 ?_
    rw [← he2] at hum
    exact hum

theorem u32_inj {a b : Int} (ha1 : 0 ≤ a) (ha2 : a < 4294967296)
    (hb1 : 0 ≤ b) (hb2 : b < 4294967296) (h : u32 a = u32 b) : a = b := by
  unfold u32 at h
  omega

theorem buildVMIDToSegments_lookup_none (rd : PlatformRawData) (clo : IDToVifs)
    (k : Int) (hnd : (rd.vmIDToVifs.map Prod.fst).Nodup)
    (hv : alLookup rd.vmIDToVifs k = none) :
    alLookup (buildVMIDToSegments rd clo) k = none := by
  have h := alLookup_setFold
    (fun p : Int × VifSet =>
      match alLookup clo p.1 with
      | some podVifs => addAllVifs (addAllVifs newNetworkMacs p.2) podVifs
      | none => addAllVifs newNetworkMacs p.2)
    rd.vmIDToVifs newIDToNetworkMacs k hnd
  rw [hv] at h
  exact h

/-- C4: pod-level and pod-node-level interfaces propagate to the owning VM;
a sibling VM that owns neither sees neither; and every interface in a VM's
closure comes from some pod-node actually mapped to that VM (so a pod-node
with no owning VM contributes nothing to any VM). -/
theorem transitive_closure_visibility (s : Segment) (rd : PlatformRawData)
    (N P V V2 : Int) (I1 I2 : VInterface) (vvifs : VifSet)
    (hN : N ∈ rd.idToPodNode)
    (hP : P ∈ optPods rd.podNodeIDtoPodIDs N)
    (hI1 : I1 ∈ optVifs rd.podIDToVifs P)
    (hI2 : I2 ∈ optVifs rd.podNodeIDToVifs N)
    (hVM : (N, V) ∈ rd.podNodeIDToVmID)
    (hm1 : ¬ I1.mac = "")
    (hm2 : ¬ I2.mac = "")
    (hV : alLookup rd.vmIDToVifs V = some vvifs)
    (hndV : (rd.vmIDToVifs.map Prod.fst).Nodup)
    (hr1 : 0 ≤ I1.id ∧ I1.id < 4294967296)
    (hr2 : 0 ≤ I2.id ∧ I2.id < 4294967296)
    (hV2a : ∀ w ∈ optVifs rd.vmIDToVifs V2,
      ¬ w.id = I1.id ∧ ¬ w.id = I2.id ∧ 0 ≤ w.id ∧ w.id < 4294967296)
    (hV2b : ∀ m, (m, V2) ∈ rd.podNodeIDToVmID →
      (∀ w ∈ optVifs rd.podNodeIDToVifs m,
        ¬ w.id = I1.id ∧ ¬ w.id = I2.id ∧ 0 ≤ w.id ∧ w.id < 4294967296) ∧
      (∀ pid ∈ optPods rd.podNodeIDtoPodIDs m,
        ∀ w ∈ optVifs rd.podIDToVifs pid,
          ¬ w.id = I1.id ∧ ¬ w.id = I2.id ∧ 0 ≤ w.id ∧ w.id < 4294967296)) :
    segsHaveVif (GetVMIDSegments (generateBaseSegments s rd) V).1 I1 ∧
    segsHaveVif (GetVMIDSegments (generateBaseSegments s rd) V).1 I2 ∧
    segsHaveVif (GetPodNodeSegments (generateBaseSegments s rd) N).1 I1 ∧
    segsHaveVif (GetPodNodeSegments (generateBaseSegments s rd) N).1 I2 ∧
    (∀ seg ∈ (GetVMIDSegments (generateBaseSegments s rd) V2).1,
      ¬ u32 I1.id ∈ seg.interfaceId ∧ ¬ u32 I2.id ∈ seg.interfaceId) ∧
    (∀ W w, w ∈ optVifs (generateBaseSegments s rd).vmIDToPodNodeAllVifs W →
      ∃ m, (m, W) ∈ rd.podNodeIDToVmID ∧
        w ∈ optVifs (generateBaseSegments s rd).podNodeIDToAllVifs m) := by
  have hclo1 : I1 ∈ optVifs (buildPodNodeAllVifs rd) N :=
    (mem_buildPodNodeAllVifs_iff rd N I1).mpr ⟨hN, Or.inr ⟨P, hP, hI1⟩⟩
  have hclo2 : I2 ∈ optVifs (buildPodNodeAllVifs rd) N :=
    (mem_buildPodNodeAllVifs_iff rd N I2).mpr ⟨hN, Or.inl hI2⟩
  have hvm1 : I1 ∈ optVifs (buildVmPodNodeAllVifs rd (buildPodNodeAllVifs rd)) V :=
    (mem_buildVmPodNodeAllVifs_iff rd _ V I1).mpr ⟨(N, V), hVM, rfl, hclo1⟩
  have hvm2 : I2 ∈ optVifs (buildVmPodNodeAllVifs rd (buildPodNodeAllVifs rd)) V :=
    (mem_buildVmPodNodeAllVifs_iff rd _ V I2).mpr ⟨(N, V), hVM, rfl, hclo2⟩
  have hlv : alLookup (generateBaseSegments s rd).vmIDToSegments V
      = some (addAllVifs newNetworkMacs
          (vvifs ++ optVifs (buildVmPodNodeAllVifs rd (buildPodNodeAllVifs rd)) V)) := by
    rw [build_vm_field]
    exact buildVMIDToSegments_lookup rd _ V vvifs hndV hV
  have hfstV : (GetVMIDSegments (generateBaseSegments s rd) V).1
      = (addAllVifs newNetworkMacs
          (vvifs ++ optVifs (buildVmPodNodeAllVifs rd (buildPodNodeAllVifs rd)) V)).map
          segOfNetwork :=
    getSegmentsByID_fst _ _ _ _ hlv
  have hpnl : ∃ nvifs, alLookup (buildPodNodeAllVifs rd) N = some nvifs := by
    revert hclo1
    unfold optVifs
    cases hpn : alLookup (buildPodNodeAllVifs rd) N
    · intro h
      cases h
    · intro _
      exact ⟨_, rfl⟩
  rcases hpnl with ⟨nvifs, hpn⟩
  have hin1 : I1 ∈ nvifs := by
    have h := hclo1
    unfold optVifs at h
    simp only [hpn] at h
    exact h
  have hin2 : I2 ∈ nvifs := by
    have h := hclo2
    unfold optVifs at h
    simp only [hpn] at h
    exact h
  have hlpn : alLookup (generateBaseSegments s rd).podNodeIDToSegments N
      = some (addAllVifs newNetworkMacs nvifs) := by
    rw [build_podnodeidx_field]
    exact buildVifsIndex_lookup _ N nvifs (keys_nodup_buildPodNodeAllVifs rd) hpn
  have hfstN : (GetPodNodeSegments (generateBaseSegments s rd) N).1
      = (addAllVifs newNetworkMacs nvifs).map segOfNetwork :=
    getSegmentsByID_fst _ _ _ _ hlpn
  refine ⟨?_, ?_, ?_, ?_, ?_, ?_⟩
  · rw [hfstV]
    exact segsHaveVif_of_mem _ I1 (List.mem_append_right _ hvm1) hm1
  · rw [hfstV]
    exact segsHaveVif_of_mem _ I2 (List.mem_append_right _ hvm2) hm2
  · rw [hfstN]
    exact segsHaveVif_of_mem _ I1 hin1 hm1
  · rw [hfstN]
    exact segsHaveVif_of_mem _ I2 hin2 hm2
  · intro seg hseg
    cases hv2 : alLookup rd.vmIDToVifs V2 with
    | none =>
        have hnone : alLookup (generateBaseSegments s rd).vmIDToSegments V2 = none := by
          rw [build_vm_field]
          exact buildVMIDToSegments_lookup_none rd _ V2 hndV hv2
        have hempty : (GetVMIDSegments (generateBaseSegments s rd) V2).1 = [] := by
          unfold GetVMIDSegments getSegmentsByID
          rw [hnone]
        rw [hempty] at hseg
        cases hseg
    | some vv2 =>
        have hlv2 : alLookup (generateBaseSegments s rd).vmIDToSegments V2
            = some (addAllVifs newNetworkMacs (vv2 ++
                optVifs (buildVmPodNodeAllVifs rd (buildPodNodeAllVifs rd)) V2)) := by
          rw [build_vm_field]
          exact buildVMIDToSegments_lookup rd _ V2 vv2 hndV hv2
        have hfst2 : (GetVMIDSegments (generateBaseSegments s rd) V2).1
            = (addAllVifs newNetworkMacs (vv2 ++
                optVifs (buildVmPodNodeAllVifs rd (buildPodNodeAllVifs rd)) V2)).map
                segOfNetwork :=
          getSegmentsByID_fst _ _ _ _ hlv2
        rw [hfst2] at hseg
        have hprop : ∀ w ∈ vv2 ++
            optVifs (buildVmPodNodeAllVifs rd (buildPodNodeAllVifs rd)) V2,
            ¬ w.id = I1.id ∧ ¬ w.id = I2.id ∧ 0 ≤ w.id ∧ w.id < 4294967296 := by
          intro w hw
          rcases List.mem_append.mp hw with h | h
          · refine hV2a w ?_
            unfold optVifs
            simp only [hv2]
            exact h
          · rcases (mem_buildVmPodNodeAllVifs_iff rd _ V2 w).mp h with
              ⟨pr, hpr, hpr2, hwm⟩
            obtain ⟨m, vx⟩ := pr
            cases hpr2
            rcases (mem_buildPodNodeAllVifs_iff rd m w).mp hwm with ⟨hmm, hdisj⟩
            rcases hdisj with hdir | ⟨pid, hpid, hpw⟩
            · exact (hV2b m hpr).1 w hdir
            · exact (hV2b m hpr).2 pid hpid w hpw
        constructor
        · refine segs_no_vifID _ I1.id ?_ seg hseg
          intro w hw heq
          rcases hprop w hw with ⟨hne1, _, hw1, hw2⟩
          exact hne1 (u32_inj hw1 hw2 hr1.1 hr1.2 heq)
        · refine segs_no_vifID _ I2.id ?_ seg hseg
          intro w hw heq
          rcases hprop w hw with ⟨_, hne2, hw1, hw2⟩
          exact hne2 (u32_inj hw1 hw2 hr2.1 hr2.2 heq)
  · intro W w hw
    have hw2 : w ∈ optVifs (buildVmPodNodeAllVifs rd (buildPodNodeAllVifs rd)) W := hw
    rcases (mem_buildVmPodNodeAllVifs_iff rd _ W w).mp hw2 with ⟨pr, hpr, hpr2, hwm⟩
    obtain ⟨m, vx⟩ := pr
    cases hpr2
    exact ⟨m, hpr, hwm⟩

theorem transitive_closure_visibility_witness :
    segsHaveVif (GetVMIDSegments (generateBaseSegments newSegment rdC4) 200).1 vifP ∧
    segsHaveVif (GetVMIDSegments (generateBaseSegments newSegment rdC4) 200).1 vifN ∧
    segsHaveVif (GetPodNodeSegments (generateBaseSegments newSegment rdC4) 300).1 vifP ∧
    segsHaveVif (GetPodNodeSegments (generateBaseSegments newSegment rdC4) 300).1 vifN ∧
    (¬ u32 vifP.id ∈
      ({ id := 30, mac := ["s"], interfaceId := [6] } : TridentSegment).interfaceId) ∧
    (∃ m, (m, (200 : Int)) ∈ rdC4.podNodeIDToVmID ∧
      vifN ∈ optVifs (generateBaseSegments newSegment rdC4).podNodeIDToAllVifs m) := by
  have h := transitive_closure_visibility newSegment rdC4 300 400 200 201 vifP vifN
    [vifV] (by decide) (by decide) (by decide) (by decide) (by decide) (by decide)
    (by decide) (by decide) (by decide) (by decide) (by decide) (by decide)
    (by intro m hm; simp [rdC4] at hm)
  refine ⟨h.1, h.2.1, h.2.2.1, h.2.2.2.1, ?_, ?_⟩
  · exact (h.2.2.2.2.1 _ (by decide)).1
  · exact h.2.2.2.2.2 200 vifN (by decide)

end DF
